import Mathlib

/-!
# Verification of the Sizzle recipe backend

Shallow embedding of the recipe-persistence service (`backend/recipe_helpers.py`,
`backend/db_manager.py`) and the background image-generation pipeline
(`backend/background_tasks.py`, `backend/image_generator.py`).

Database tables become lists of rows; each `.execute()` call on the Supabase
client becomes one primitive operation on an explicit state.  Operations are
numbered, and a fault schedule (a list of operation indices that raise) models
exceptions thrown by the database client; Python `try/except` blocks become
explicit matches on `Except` results.  External collaborators (image
generation, download, object storage) are modelled as oracle inputs, and the
calls made to them are recorded in traces so that claims about which
collaborators run can be stated.
-/

set_option autoImplicit false

namespace Sizzle

/-! ## Python value helpers

Python truthiness for the `if not x` / `x or y` patterns in the source. -/

/-- Truthiness of an optional string: `None` and `""` are falsy. -/
def strTruthy : Option String → Bool
  | none => false
  | some s => s != ""

/-- Truthiness of an optional integer: `None` and `0` are falsy. -/
def natTruthy : Option Nat → Bool
  | none => false
  | some n => n != 0

/-- Python `a or b` on optional strings. -/
def pyOrStr (a b : Option String) : Option String :=
  if strTruthy a then a else b

/-- Python `a or b` on optional integers. -/
def pyOrNat (a b : Option Nat) : Option Nat :=
  if natTruthy a then a else b

/-- Python `str.lower()` (character-wise; structural so that proofs can
evaluate it). -/
def pyLower (s : String) : String :=
  String.mk (s.data.map Char.toLower)

/-- Python `str.capitalize()`: first character upper-cased, the rest
lower-cased. -/
def pyCapitalize (s : String) : String :=
  match s.data with
  | [] => ""
  | c :: rest => String.mk (c.toUpper :: rest.map Char.toLower)

/-- Substring occurrence over character lists. -/
def containsSub : List Char → List Char → Bool
  | [], pat => pat.isEmpty
  | c :: rest, pat => pat.isPrefixOf (c :: rest) || containsSub rest pat

/-- Postgres `ilike` with no wildcards: case-insensitive string equality. -/
def ilikeEq (a b : String) : Bool :=
  pyLower a == pyLower b

/-- Python `pat in s` substring test. -/
def strContains (s pat : String) : Bool :=
  containsSub s.data pat.data

/-! ## Database rows -/

/-- A row of the `recipes` table. -/
structure RecipeRow where
  id : Nat
  title : Option String
  description : Option String
  prep_time : Option String
  cook_time : Option String
  servings : Nat
deriving DecidableEq

/-- A row of the `ingredients` or `equipment` master lookup tables. -/
structure MasterRow where
  id : Nat
  name : String
deriving DecidableEq

/-- A row of the `recipe_ingredients` join table. -/
structure RecipeIngredientRow where
  id : Nat
  recipe_id : Nat
  ingredient_id : Nat
  name : String
  quantity : String
  unit : String
deriving DecidableEq

/-- A row of the `recipe_equipment` join table. -/
structure RecipeEquipmentRow where
  id : Nat
  recipe_id : Nat
  equipment_id : Nat
  name : String
deriving DecidableEq

/-- A row of the `recipe_steps` table. -/
structure StepRow where
  id : Nat
  recipe_id : Nat
  step_number : Option Nat
  instruction : String
  output : Option String
  dependencies : List Nat
  image_url : Option String
  image_prompt : Option String
  image_generated_at : Option String
deriving DecidableEq

/-- A row of the `step_ingredients` join table; `ingredient_id` holds a
`recipe_ingredients.id` (not a master `ingredients.id`). -/
structure StepIngredientRow where
  step_id : Nat
  ingredient_id : Nat
deriving DecidableEq

/-- A row of the `step_equipment` join table; `equipment_id` holds a
`recipe_equipment.id`. -/
structure StepEquipmentRow where
  step_id : Nat
  equipment_id : Nat
deriving DecidableEq

/-- The relational state: all eight tables plus the next serial id (serial ids
in Postgres start at 1 and are shared here across tables for simplicity). -/
structure DB where
  recipes : List RecipeRow
  ingredients : List MasterRow
  equipment : List MasterRow
  recipe_ingredients : List RecipeIngredientRow
  recipe_equipment : List RecipeEquipmentRow
  recipe_steps : List StepRow
  step_ingredients : List StepIngredientRow
  step_equipment : List StepEquipmentRow
  nextId : Nat
deriving DecidableEq

/-- The empty database. -/
def DB.empty : DB :=
  { recipes := [], ingredients := [], equipment := [], recipe_ingredients := []
    recipe_equipment := [], recipe_steps := [], step_ingredients := []
    step_equipment := [], nextId := 1 }

/-! ## Input records

The recipe dictionary passed to `save_recipe_to_db`.  An absent key and a
`None` value are both modelled as `none`. -/

/-- An ingredient record `\x7bname, quantity, unit\x7d`. -/
structure IngredientInput where
  name : Option String
  quantity : String
  unit : String
deriving DecidableEq

/-- An equipment record `\x7bname\x7d`. -/
structure EquipmentInput where
  name : Option String
deriving DecidableEq

/-- A step record; `idField` models the `id` key used as a fallback for
`step_number`. -/
structure StepInput where
  step_number : Option Nat
  idField : Option Nat
  instruction : Option String
  output : Option String
  dependencies : List Nat
  ingredients : List IngredientInput
  equipment : List EquipmentInput
deriving DecidableEq

/-- The recipe dictionary. -/
structure RecipeData where
  title : Option String
  description : Option String
  prep_time : Option String
  prepTime : Option String
  cook_time : Option String
  cookTime : Option String
  servings : Option Nat
  ingredients : List IngredientInput
  equipment : List EquipmentInput
  steps : List StepInput
deriving DecidableEq

/-! ## Database operations with fault injection

Every `.execute()` call is one numbered operation.  A fault schedule lists the
operation indices at which the database client raises.  Write operations are
recorded in a trace so ordering claims can be stated. -/

/-- A database write event, tagged by kind and table. -/
inductive DbEv where
  | delStepIngredients (step_id : Nat)
  | delStepEquipment (step_id : Nat)
  | delRecipeSteps (recipe_id : Nat)
  | delRecipeIngredients (recipe_id : Nat)
  | delRecipeEquipment (recipe_id : Nat)
  | updRecipes (recipe_id : Nat)
  | insRecipes
  | insIngredientsMaster
  | insEquipmentMaster
  | insRecipeIngredients
  | insRecipeEquipment
  | insRecipeSteps
  | insStepIngredients
  | insStepEquipment
  | updRecipeStepsImage (step_id : Nat)
deriving DecidableEq

/-- Whether an event is a deletion. -/
def DbEv.isDelete : DbEv → Bool
  | .delStepIngredients _ => true
  | .delStepEquipment _ => true
  | .delRecipeSteps _ => true
  | .delRecipeIngredients _ => true
  | .delRecipeEquipment _ => true
  | _ => false

/-- Arguments captured when a background image task is dispatched
(`generate_step_image_async`); dispatch is fire-and-forget, so the task body
does not run inside `save_recipe_to_db`. -/
structure SpawnArgs where
  step_id : Nat
  step_number : Option Nat
  step_instruction : String
  recipe_id : Nat
  recipe_title : String
deriving DecidableEq

/-- Execution state: database, operation counter, fault schedule, write trace,
and dispatched background tasks. -/
structure St where
  db : DB
  opIdx : Nat
  faults : List Nat
  trace : List DbEv
  spawns : List SpawnArgs
deriving DecidableEq

/-- One database operation: raises when the current operation index is in the
fault schedule, otherwise applies `f` and records `ev`. -/
def dbOp {α : Type} (ev : List DbEv) (f : DB → DB × α) (s : St) :
    Except String α × St :=
  if s.faults.contains s.opIdx then
    (Except.error "db error", { s with opIdx := s.opIdx + 1 })
  else
    let p := f s.db
    (Except.ok p.2,
      { s with db := p.1, opIdx := s.opIdx + 1, trace := s.trace ++ ev })

/-- A read-only database operation. -/
def dbRead {α : Type} (f : DB → α) (s : St) : Except String α × St :=
  dbOp [] (fun db => (db, f db)) s

/-- Sequencing: a raised exception skips the continuation. -/
def andThen {α β : Type} (x : Except String α × St)
    (f : α → St → Except String β × St) : Except String β × St :=
  match x with
  | (Except.error e, s) => (Except.error e, s)
  | (Except.ok a, s) => f a s

/-- A Python `try/except` returning a default on any exception. -/
def caught {α : Type} (x : Except String α × St) (d : α) : α × St :=
  match x with
  | (Except.error _, s) => (d, s)
  | (Except.ok a, s) => (a, s)

/-! ## Pure table operations -/

/-- `recipes` select by case-insensitive title match, limit 1
(`.ilike("title", title).limit(1)`). -/
def selectRecipeByTitleIlike (t : String) (db : DB) : Option RecipeRow :=
  db.recipes.find? (fun r =>
    match r.title with
    | some x => ilikeEq x t
    | none => false)

/-- The scalar columns written to the `recipes` table. -/
structure RecipeFields where
  title : Option String
  description : Option String
  prep_time : Option String
  cook_time : Option String
  servings : Nat
deriving DecidableEq

/-- Insert into `recipes`; returns the generated id. -/
def recipesInsert (f : RecipeFields) (db : DB) : DB × Nat :=
  ({ db with
      recipes := db.recipes ++
        [{ id := db.nextId, title := f.title, description := f.description
           prep_time := f.prep_time, cook_time := f.cook_time
           servings := f.servings }]
      nextId := db.nextId + 1 }, db.nextId)

/-- Update the scalar columns of every `recipes` row with the given id. -/
def recipesUpdate (rid : Nat) (f : RecipeFields) (db : DB) : DB × Unit :=
  ({ db with
      recipes := db.recipes.map (fun r =>
        if r.id == rid then
          { r with title := f.title, description := f.description
                   prep_time := f.prep_time, cook_time := f.cook_time
                   servings := f.servings }
        else r) }, ())

/-- `recipe_steps` select of the ids of a recipe's steps. -/
def selectStepIdsByRecipe (rid : Nat) (db : DB) : List Nat :=
  (db.recipe_steps.filter (fun r => r.recipe_id == rid)).map (fun r => r.id)

/-- Delete `step_ingredients` rows of one step. -/
def deleteStepIngredientsByStep (sid : Nat) (db : DB) : DB × Unit :=
  ({ db with step_ingredients :=
      db.step_ingredients.filter (fun r => !(r.step_id == sid)) }, ())

/-- Delete `step_equipment` rows of one step. -/
def deleteStepEquipmentByStep (sid : Nat) (db : DB) : DB × Unit :=
  ({ db with step_equipment :=
      db.step_equipment.filter (fun r => !(r.step_id == sid)) }, ())

/-- Delete a recipe's `recipe_steps` rows. -/
def deleteStepsByRecipe (rid : Nat) (db : DB) : DB × Unit :=
  ({ db with recipe_steps :=
      db.recipe_steps.filter (fun r => !(r.recipe_id == rid)) }, ())

/-- Delete a recipe's `recipe_ingredients` rows. -/
def deleteRecipeIngredientsByRecipe (rid : Nat) (db : DB) : DB × Unit :=
  ({ db with recipe_ingredients :=
      db.recipe_ingredients.filter (fun r => !(r.recipe_id == rid)) }, ())

/-- Delete a recipe's `recipe_equipment` rows. -/
def deleteRecipeEquipmentByRecipe (rid : Nat) (db : DB) : DB × Unit :=
  ({ db with recipe_equipment :=
      db.recipe_equipment.filter (fun r => !(r.recipe_id == rid)) }, ())

/-- `ingredients` master select by case-insensitive name, limit 1. -/
def findIngredientIlike (name : String) (db : DB) : Option Nat :=
  (db.ingredients.find? (fun r => ilikeEq r.name name)).map (fun r => r.id)

/-- Insert into the `ingredients` master table; returns the generated id. -/
def ingredientsInsert (name : String) (db : DB) : DB × Nat :=
  ({ db with
      ingredients := db.ingredients ++ [{ id := db.nextId, name := name }]
      nextId := db.nextId + 1 }, db.nextId)

/-- `equipment` master select by case-insensitive name, limit 1. -/
def findEquipmentIlike (name : String) (db : DB) : Option Nat :=
  (db.equipment.find? (fun r => ilikeEq r.name name)).map (fun r => r.id)

/-- Insert into the `equipment` master table; returns the generated id. -/
def equipmentInsert (name : String) (db : DB) : DB × Nat :=
  ({ db with
      equipment := db.equipment ++ [{ id := db.nextId, name := name }]
      nextId := db.nextId + 1 }, db.nextId)

/-- Insert into `recipe_ingredients`; returns the generated id. -/
def recipeIngredientsInsert (rid iid : Nat) (name qty unit : String)
    (db : DB) : DB × Nat :=
  ({ db with
      recipe_ingredients := db.recipe_ingredients ++
        [{ id := db.nextId, recipe_id := rid, ingredient_id := iid
           name := name, quantity := qty, unit := unit }]
      nextId := db.nextId + 1 }, db.nextId)

/-- Insert into `recipe_equipment`; returns the generated id. -/
def recipeEquipmentInsert (rid eid : Nat) (name : String) (db : DB) :
    DB × Nat :=
  ({ db with
      recipe_equipment := db.recipe_equipment ++
        [{ id := db.nextId, recipe_id := rid, equipment_id := eid
           name := name }]
      nextId := db.nextId + 1 }, db.nextId)

/-- Insert into `recipe_steps`; returns the generated id. -/
def stepsInsert (rid : Nat) (num : Option Nat) (instr : String)
    (output : Option String) (deps : List Nat) (db : DB) : DB × Nat :=
  ({ db with
      recipe_steps := db.recipe_steps ++
        [{ id := db.nextId, recipe_id := rid, step_number := num
           instruction := instr, output := output, dependencies := deps
           image_url := none, image_prompt := none
           image_generated_at := none }]
      nextId := db.nextId + 1 }, db.nextId)

/-- `recipe_steps` select of a step's `recipe_id` by step id. -/
def selectStepRecipeId (sid : Nat) (db : DB) : Option Nat :=
  (db.recipe_steps.find? (fun r => r.id == sid)).map (fun r => r.recipe_id)

/-- `recipe_ingredients` select by recipe id and case-insensitive name. -/
def selectRecipeIngredientIdByName (rid : Nat) (name : String) (db : DB) :
    Option Nat :=
  (db.recipe_ingredients.find? (fun r =>
    r.recipe_id == rid && ilikeEq r.name name)).map (fun r => r.id)

/-- `recipe_equipment` select by recipe id and case-insensitive name. -/
def selectRecipeEquipmentIdByName (rid : Nat) (name : String) (db : DB) :
    Option Nat :=
  (db.recipe_equipment.find? (fun r =>
    r.recipe_id == rid && ilikeEq r.name name)).map (fun r => r.id)

/-- Insert into `step_ingredients`. -/
def stepIngredientsInsert (sid riid : Nat) (db : DB) : DB × Unit :=
  ({ db with step_ingredients :=
      db.step_ingredients ++ [{ step_id := sid, ingredient_id := riid }] }, ())

/-- Insert into `step_equipment`. -/
def stepEquipmentInsert (sid reid : Nat) (db : DB) : DB × Unit :=
  ({ db with step_equipment :=
      db.step_equipment ++ [{ step_id := sid, equipment_id := reid }] }, ())

/-! ## recipe_helpers.py

The recipe-persistence service.  Function names follow the source, with the
leading underscore dropped. -/

/-- `_get_existing_recipe_by_title`: `None`/empty title short-circuits before
any database call; the select is wrapped in try/except returning `None`. -/
def get_existing_recipe_by_title (title : Option String) (s : St) :
    Option RecipeRow × St :=
  if !strTruthy title then (none, s)
  else caught (dbRead (selectRecipeByTitleIlike (title.getD "")) s) none

/-- The per-step deletion loop inside `_delete_recipe_data`: for each step id,
delete its `step_ingredients` rows then its `step_equipment` rows. -/
def delete_step_joins_loop : List Nat → St → Except String Unit × St
  | [], s => (Except.ok (), s)
  | sid :: rest, s =>
    andThen (dbOp [DbEv.delStepIngredients sid]
        (deleteStepIngredientsByStep sid) s) (fun _ s1 =>
      andThen (dbOp [DbEv.delStepEquipment sid]
          (deleteStepEquipmentByStep sid) s1) (fun _ s2 =>
        delete_step_joins_loop rest s2))

/-- `_delete_recipe_data`: select the recipe's step ids, delete the step join
rows, then the steps, then the recipe-ingredient joins, then the
recipe-equipment joins; any exception is caught and swallowed. -/
def delete_recipe_data (rid : Nat) (s : St) : St :=
  (caught
    (andThen (dbRead (selectStepIdsByRecipe rid) s) (fun stepIds s1 =>
      andThen (delete_step_joins_loop stepIds s1) (fun _ s2 =>
        andThen (dbOp [DbEv.delRecipeSteps rid]
            (deleteStepsByRecipe rid) s2) (fun _ s3 =>
          andThen (dbOp [DbEv.delRecipeIngredients rid]
              (deleteRecipeIngredientsByRecipe rid) s3) (fun _ s4 =>
            dbOp [DbEv.delRecipeEquipment rid]
              (deleteRecipeEquipmentByRecipe rid) s4)))))
    ()).2

/-- The scalar-field dictionary built by both `_update_recipe` and
`_insert_recipe` (`prep_time or prepTime`, `cook_time or cookTime`,
`servings` defaulting to 4). -/
def recipe_scalar_fields (rd : RecipeData) : RecipeFields :=
  { title := rd.title
    description := rd.description
    prep_time := pyOrStr rd.prep_time rd.prepTime
    cook_time := pyOrStr rd.cook_time rd.cookTime
    servings := rd.servings.getD 4 }

/-- `_update_recipe`: update the scalar columns in place; exceptions are
caught and swallowed. -/
def update_recipe (rid : Nat) (rd : RecipeData) (s : St) : St :=
  (caught (dbOp [DbEv.updRecipes rid]
    (recipesUpdate rid (recipe_scalar_fields rd)) s) ()).2

/-- `_insert_recipe`: insert the main recipe record, returning the generated
id; exceptions are caught and `None` is returned. -/
def insert_recipe (rd : RecipeData) (s : St) : Option Nat × St :=
  caught
    (andThen (dbOp [DbEv.insRecipes]
        (recipesInsert (recipe_scalar_fields rd)) s)
      (fun i s1 => (Except.ok (some i), s1)))
    none

/-- `_get_or_create_ingredient`: case-insensitive master lookup, inserting a
new master row when absent; exceptions are caught and `None` is returned. -/
def get_or_create_ingredient (name : String) (s : St) : Option Nat × St :=
  if name == "" then (none, s)
  else
    caught
      (andThen (dbRead (findIngredientIlike name) s) (fun found s1 =>
        match found with
        | some i => (Except.ok (some i), s1)
        | none =>
          andThen (dbOp [DbEv.insIngredientsMaster] (ingredientsInsert name) s1)
            (fun i s2 => (Except.ok (some i), s2))))
      none

/-- `_get_or_create_equipment`: the equipment analogue. -/
def get_or_create_equipment (name : String) (s : St) : Option Nat × St :=
  if name == "" then (none, s)
  else
    caught
      (andThen (dbRead (findEquipmentIlike name) s) (fun found s1 =>
        match found with
        | some i => (Except.ok (some i), s1)
        | none =>
          andThen (dbOp [DbEv.insEquipmentMaster] (equipmentInsert name) s1)
            (fun i s2 => (Except.ok (some i), s2))))
      none

/-- The loop body of `_insert_recipe_ingredients`: unnamed ingredients are
skipped; a falsy get-or-create id skips the join insert. -/
def insert_recipe_ingredients_loop (rid : Nat) :
    List IngredientInput → St → Except String Unit × St
  | [], s => (Except.ok (), s)
  | ing :: rest, s =>
    if !strTruthy ing.name then insert_recipe_ingredients_loop rid rest s
    else
      let name := ing.name.getD ""
      let r := get_or_create_ingredient name s
      if natTruthy r.1 then
        andThen (dbOp [DbEv.insRecipeIngredients]
            (recipeIngredientsInsert rid (r.1.getD 0) name ing.quantity
              ing.unit) r.2)
          (fun _ s2 => insert_recipe_ingredients_loop rid rest s2)
      else insert_recipe_ingredients_loop rid rest r.2

/-- `_insert_recipe_ingredients`: the loop under a try/except that swallows
any exception. -/
def insert_recipe_ingredients (rid : Nat) (ings : List IngredientInput)
    (s : St) : St :=
  (caught (insert_recipe_ingredients_loop rid ings s) ()).2

/-- The loop body of `_insert_recipe_equipment`. -/
def insert_recipe_equipment_loop (rid : Nat) :
    List EquipmentInput → St → Except String Unit × St
  | [], s => (Except.ok (), s)
  | eqp :: rest, s =>
    if !strTruthy eqp.name then insert_recipe_equipment_loop rid rest s
    else
      let name := eqp.name.getD ""
      let r := get_or_create_equipment name s
      if natTruthy r.1 then
        andThen (dbOp [DbEv.insRecipeEquipment]
            (recipeEquipmentInsert rid (r.1.getD 0) name) r.2)
          (fun _ s2 => insert_recipe_equipment_loop rid rest s2)
      else insert_recipe_equipment_loop rid rest r.2

/-- `_insert_recipe_equipment`: the loop under a try/except that swallows any
exception. -/
def insert_recipe_equipment (rid : Nat) (eqs : List EquipmentInput) (s : St) :
    St :=
  (caught (insert_recipe_equipment_loop rid eqs s) ()).2

/-- The per-reference loop of `_insert_step_ingredients`: each named reference
is resolved against the `recipe_ingredients` rows of the step's recipe by
case-insensitive name match; an unresolved name inserts nothing. -/
def step_ing_loop (sid rid : Nat) :
    List IngredientInput → St → Except String Unit × St
  | [], s => (Except.ok (), s)
  | ing :: rest, s =>
    if !strTruthy ing.name then step_ing_loop sid rid rest s
    else
      andThen (dbRead (selectRecipeIngredientIdByName rid (ing.name.getD ""))
          s)
        (fun found s1 =>
          match found with
          | some riid =>
            andThen (dbOp [DbEv.insStepIngredients]
                (stepIngredientsInsert sid riid) s1)
              (fun _ s2 => step_ing_loop sid rid rest s2)
          | none => step_ing_loop sid rid rest s1)

/-- `_insert_step_ingredients`: look up the step's `recipe_id` first (missing
step returns early), then run the reference loop; any exception is caught and
swallowed. -/
def insert_step_ingredients (sid : Nat) (ings : List IngredientInput)
    (s : St) : St :=
  (caught
    (andThen (dbRead (selectStepRecipeId sid) s) (fun rid? s1 =>
      match rid? with
      | none => (Except.ok (), s1)
      | some rid => step_ing_loop sid rid ings s1))
    ()).2

/-- The per-reference loop of `_insert_step_equipment`. -/
def step_eq_loop (sid rid : Nat) :
    List EquipmentInput → St → Except String Unit × St
  | [], s => (Except.ok (), s)
  | eqp :: rest, s =>
    if !strTruthy eqp.name then step_eq_loop sid rid rest s
    else
      andThen (dbRead (selectRecipeEquipmentIdByName rid (eqp.name.getD ""))
          s)
        (fun found s1 =>
          match found with
          | some reid =>
            andThen (dbOp [DbEv.insStepEquipment]
                (stepEquipmentInsert sid reid) s1)
              (fun _ s2 => step_eq_loop sid rid rest s2)
          | none => step_eq_loop sid rid rest s1)

/-- `_insert_step_equipment`: the equipment analogue. -/
def insert_step_equipment (sid : Nat) (eqs : List EquipmentInput) (s : St) :
    St :=
  (caught
    (andThen (dbRead (selectStepRecipeId sid) s) (fun rid? s1 =>
      match rid? with
      | none => (Except.ok (), s1)
      | some rid => step_eq_loop sid rid eqs s1))
    ()).2

/-- The loop body of `_insert_recipe_steps`: steps without instruction text
are skipped; each inserted step gets its step-joins inserted, and an image
task is dispatched when `auto_generate_images` is set. -/
def insert_recipe_steps_loop (rid : Nat) (recipe_title : String)
    (auto : Bool) : List StepInput → St → Except String Unit × St
  | [], s => (Except.ok (), s)
  | st :: rest, s =>
    let stepNum := pyOrNat st.step_number st.idField
    if !strTruthy st.instruction then
      insert_recipe_steps_loop rid recipe_title auto rest s
    else
      andThen (dbOp [DbEv.insRecipeSteps]
          (stepsInsert rid stepNum (st.instruction.getD "") st.output
            st.dependencies) s)
        (fun sid s1 =>
          let s2 :=
            if !st.ingredients.isEmpty then
              insert_step_ingredients sid st.ingredients s1
            else s1
          let s3 :=
            if !st.equipment.isEmpty then
              insert_step_equipment sid st.equipment s2
            else s2
          let s4 :=
            if auto then
              { s3 with spawns := s3.spawns ++
                  [{ step_id := sid, step_number := stepNum
                     step_instruction := st.instruction.getD ""
                     recipe_id := rid, recipe_title := recipe_title }] }
            else s3
          insert_recipe_steps_loop rid recipe_title auto rest s4)

/-- `_insert_recipe_steps`: the loop under a try/except that swallows any
exception. -/
def insert_recipe_steps (rid : Nat) (steps : List StepInput)
    (recipe_title : String) (auto : Bool) (s : St) : St :=
  (caught (insert_recipe_steps_loop rid recipe_title auto steps s) ()).2

/-- `save_recipe_to_db`: look up an existing recipe by case-insensitive title;
if found, delete its dependent rows and update the scalar fields in place,
re-using the id; otherwise insert a new recipe.  Then insert ingredients,
equipment and steps.  The outer try/except cannot fire in this model because
every sub-helper already catches its own exceptions. -/
def save_recipe_to_db (rd : RecipeData) (auto : Bool) (s : St) :
    Option Nat × St :=
  let p := get_existing_recipe_by_title rd.title s
  match p.1 with
  | some existing =>
    let s1 := delete_recipe_data existing.id p.2
    let s2 := update_recipe existing.id rd s1
    let s3 :=
      if !rd.ingredients.isEmpty then
        insert_recipe_ingredients existing.id rd.ingredients s2
      else s2
    let s4 :=
      if !rd.equipment.isEmpty then
        insert_recipe_equipment existing.id rd.equipment s3
      else s3
    let s5 :=
      if !rd.steps.isEmpty then
        insert_recipe_steps existing.id rd.steps
          (rd.title.getD "Unknown Recipe") auto s4
      else s4
    (some existing.id, s5)
  | none =>
    let q := insert_recipe rd p.2
    if !natTruthy q.1 then (none, q.2)
    else
      let rid := q.1.getD 0
      let s3 :=
        if !rd.ingredients.isEmpty then
          insert_recipe_ingredients rid rd.ingredients q.2
        else q.2
      let s4 :=
        if !rd.equipment.isEmpty then
          insert_recipe_equipment rid rd.equipment s3
        else s3
      let s5 :=
        if !rd.steps.isEmpty then
          insert_recipe_steps rid rd.steps (rd.title.getD "Unknown Recipe")
            auto s4
        else s4
      (some rid, s5)

/-- `update_recipe_step_image` (pure database part): set `image_url`,
`image_prompt` and `image_generated_at = "now()"` on the step row; the
source's try/except swallows database errors. -/
def update_recipe_step_image (db : DB) (step_id : Nat) (image_url : String)
    (prompt : String) : DB :=
  { db with
      recipe_steps := db.recipe_steps.map (fun r =>
        if r.id == step_id then
          { r with image_url := some image_url, image_prompt := some prompt
                   image_generated_at := some "now()" }
        else r) }

/-! ## db_manager.py — SupabaseManager.save_recipe

The manager-level `save_recipe` used by the HTTP layer (`app.py`).  It
validates the title (raising `ValueError` when the `title` key is absent),
looks up an existing recipe by exact (case-sensitive) title, then updates or
inserts; its blanket `except` converts any exception — including the
`ValueError` it raised itself — into a `None` return. -/

/-- The recipe dictionary handed to `SupabaseManager.save_recipe`; only the
`title` key matters for the claims (`none` models an absent key). -/
structure MgrData where
  title : Option String
deriving DecidableEq

/-- A write issued by `SupabaseManager.save_recipe`. -/
inductive MgrWrite where
  | updateRecipes (recipe_id : Nat)
  | insertRecipes
deriving DecidableEq

/-- Outcome of `SupabaseManager.save_recipe`: the returned row id (if any),
whether the title `ValueError` was raised (it is always caught by the
method's own handler), the writes issued, and the resulting database. -/
structure MgrOut where
  value : Option Nat
  raisedValueError : Bool
  writes : List MgrWrite
  db : DB
deriving DecidableEq

/-- `SupabaseManager.save_recipe` (db_manager.py). -/
def SupabaseManager_save_recipe (hasClient : Bool) (data : MgrData)
    (db : DB) : MgrOut :=
  if !hasClient then
    { value := none, raisedValueError := false, writes := [], db := db }
  else
    match data.title with
    | none =>
      -- raise ValueError("Recipe must have a title"); caught below, → None
      { value := none, raisedValueError := true, writes := [], db := db }
    | some title =>
      match db.recipes.find? (fun r => r.title == some title) with
      | some row =>
        { value := some row.id
          raisedValueError := false
          writes := [MgrWrite.updateRecipes row.id]
          db := { db with recipes := db.recipes.map (fun r =>
              if r.id == row.id then { r with title := some title } else r) } }
      | none =>
        { value := some db.nextId
          raisedValueError := false
          writes := [MgrWrite.insertRecipes]
          db := { db with
              recipes := db.recipes ++
                [{ id := db.nextId, title := some title, description := none
                   prep_time := none, cook_time := none, servings := 4 }]
              nextId := db.nextId + 1 } }

/-! ## image_generator.py — prompt construction

`generate_step_image_prompt` builds the Stable-Diffusion prompt.  When the
step has an `output`, two Python regular expressions rewrite container
phrases; they are embedded below with `re.search` semantics (leftmost match,
lazy leading group, greedy whitespace and word runs, ordered alternation). -/

/-- The container keywords of the rewrite patterns, in alternation order. -/
def container_keywords : List String :=
  ["bowl", "skillet", "pot", "pan", "plate", "dish", "cutting board", "tray"]

/-- The verbs of the first rewrite pattern, in alternation order. -/
def poured_verbs : List String :=
  ["poured into", "added to", "placed in"]

/-- Python regex `\s`. -/
def isSpaceChar (c : Char) : Bool :=
  c == ' ' || c == '\t' || c == '\n' || c == '\r' ||
    c.toNat == 11 || c.toNat == 12

/-- Python regex `\w` (ASCII). -/
def isWordChar (c : Char) : Bool :=
  c.isAlphanum || c == '_'

/-- Match a literal pattern at the head of the input. -/
def dropLit : List Char → List Char → Option (List Char)
  | [], cs => some cs
  | _ :: _, [] => none
  | l :: ls, c :: cs => if c == l then dropLit ls cs else none

/-- Ordered alternation of literals: the first alternative that matches
wins, returning it with the rest of the input. -/
def dropAlt (alts : List String) (cs : List Char) :
    Option (String × List Char) :=
  match alts with
  | [] => none
  | a :: rest =>
    match dropLit a.data cs with
    | some cs2 => some (a, cs2)
    | none => dropAlt rest cs

/-- `\s+` (greedy; the following alternatives all start with non-space, so
backtracking cannot help and the maximal run is taken). -/
def dropSpaces1 (cs : List Char) : Option (List Char) :=
  match cs with
  | [] => none
  | c :: rest =>
    if isSpaceChar c then some (rest.dropWhile isSpaceChar) else none

/-- The container group `(bowl|skillet|...)` as a prefix match. -/
def matchContainerAt (cs : List Char) : Option String :=
  (dropAlt container_keywords cs).map (fun p => p.1)

/-- The greedy optional group `(?:\w+\s+)?` followed by the container group:
word runs are tried longest-first, then the group is skipped. -/
def tryWordPrefixes : Nat → List Char → Option String
  | 0, _ => none
  | k + 1, cs =>
    (match dropSpaces1 (cs.drop (k + 1)) with
     | some cs2 => matchContainerAt cs2
     | none => none) <|>
      tryWordPrefixes k cs

/-- `(?:\w+\s+)?(container)` with greedy backtracking. -/
def matchOptWordThenContainer (cs : List Char) : Option String :=
  tryWordPrefixes (cs.takeWhile isWordChar).length cs <|> matchContainerAt cs

/-- The tail of a rewrite pattern after the lazy food group:
`\s+(verb)\s+` then the container (optionally preceded by one word for the
first pattern). -/
def matchVerbPart (verbs : List String) (withOptWord : Bool)
    (cs : List Char) : Option String :=
  match dropSpaces1 cs with
  | none => none
  | some cs1 =>
    match dropAlt verbs cs1 with
    | none => none
    | some p =>
      match dropSpaces1 p.2 with
      | none => none
      | some cs3 =>
        if withOptWord then matchOptWordThenContainer cs3
        else matchContainerAt cs3

/-- Extend the lazy food group `(.+?)` one character at a time from a fixed
start until the pattern tail matches (`.` does not match a newline). -/
def tryFromStart (verbs : List String) (withOptWord : Bool) :
    List Char → List Char → Option (String × String)
  | _, [] => none
  | pre, c :: rest =>
    if c == '\n' then none
    else
      match matchVerbPart verbs withOptWord rest with
      | some container => some (String.mk (pre ++ [c]), container)
      | none => tryFromStart verbs withOptWord (pre ++ [c]) rest

/-- `re.search` for `(.+?)\s+(verbs)\s+...(container)`: starts are tried
left to right, and for each start the food group grows lazily. -/
def reSearchFood (verbs : List String) (withOptWord : Bool) :
    List Char → Option (String × String)
  | [] => none
  | c :: rest =>
    match tryFromStart verbs withOptWord [] (c :: rest) with
    | some r => some r
    | none => reSearchFood verbs withOptWord rest

/-- The container-rewrite applied to a lowercased step output: pattern 1
(`poured into`/`added to`/`placed in`) first, then pattern 2 (`in`), else the
subject is kept unchanged. -/
def transform_subject (subject : String) : String :=
  match reSearchFood poured_verbs true subject.data with
  | some fc =>
    "single " ++ fc.2 ++ " completely filled with " ++ fc.1 ++
      ", centered, one " ++ fc.2 ++ " only"
  | none =>
    match reSearchFood ["in"] false subject.data with
    | some fc =>
      "single " ++ fc.2 ++ " filled with " ++ fc.1 ++ ", centered, one " ++
        fc.2 ++ " only"
    | none => subject

/-- The serving/plating keywords checked when a step has no output. -/
def serving_words : List String :=
  ["serving", "serve immediately", "plate", "plating", "transfer to",
    "enjoy immediately"]

/-- The comma-separated item list built from ingredients and equipment. -/
def items_list_of (ingredients equipment : List String) : String :=
  let items_to_show := ingredients ++ equipment
  if items_to_show.isEmpty then "cooking items"
  else String.intercalate ", " items_to_show

/-- Whether the lowercased instruction mentions a serving/plating word. -/
def looks_like_serving (instruction_lower : String) : Bool :=
  serving_words.any (fun w => strContains instruction_lower w)

/-- `generate_step_image_prompt`: subject from the (rewritten) output when
present, else a completed-dish subject for serving steps, else the
instruction plus the item list; wrapped in the fixed template and truncated
to 180 characters.  The `dependency_outputs` parameter is accepted but never
used by the source. -/
def generate_step_image_prompt (step_instruction recipe_title : String)
    (ingredients equipment : List String) (step_output : Option String)
    (dependency_outputs : List String) : String :=
  let _ := dependency_outputs
  let items_list := items_list_of ingredients equipment
  let subject :=
    if strTruthy step_output then
      transform_subject (pyLower (step_output.getD ""))
    else
      let instruction_lower := pyLower step_instruction
      if looks_like_serving instruction_lower then
        "completed " ++ pyLower recipe_title ++ " plated and ready to serve"
      else instruction_lower ++ ", " ++ items_list
  let prompt := "simple flat illustration, overhead view, ONLY " ++ subject ++
    ", no extra objects, plain tan background, vector style"
  prompt.take 180

/-! ## Object storage

Modelled from the spec: `upload_file_to_oci`, `OCIObjectStorage.object_exists`
and `OCIObjectStorage.get_object_url` are called by `image_generator.py` but
are not present under `src/` (`oci_storage.py` there lacks them).  Spec §6:
the object-storage collaborator "accepts (filename, bytes, content-type),
returns a publicly resolvable URL; supports an existence check by
filename". -/

/-- Modelled from the spec: object storage as the set of stored filenames. -/
structure Storage where
  objects : List String
deriving DecidableEq

/-- Modelled from the spec: the existence check by filename. -/
def object_exists (st : Storage) (filename : String) : Bool :=
  st.objects.contains filename

/-- Modelled from the spec: the publicly resolvable URL of a stored object,
derived from its filename. -/
def get_object_url (filename : String) : String :=
  "https://objectstorage.example.com/o/" ++ filename

/-- Modelled from the spec: upload under a filename, returning the public
URL, or `none` when the upload fails (`ok` is the collaborator-failure
oracle). -/
def upload_file_to_oci (ok : Bool) (st : Storage) (filename : String) :
    Storage × Option String :=
  if ok then
    ({ objects := st.objects ++ [filename] }, some (get_object_url filename))
  else (st, none)

/-! ## image_generator.py — generate_and_store_step_image -/

/-- Collaborator calls made by an image task, recorded in order. -/
inductive ImgEvent where
  | existsCheck (filename : String)
  | sdCall (prompt : String)
  | dalleCall (prompt : String)
  | uploadCall (filename : String)
  | dbUpdateStepImage (step_id : Nat) (image_url : String) (prompt : String)
deriving DecidableEq

/-- Whether an event is an image-generation call. -/
def ImgEvent.isGenCall : ImgEvent → Bool
  | .sdCall _ => true
  | .dalleCall _ => true
  | _ => false

/-- Whether an event is an object-storage upload. -/
def ImgEvent.isUploadCall : ImgEvent → Bool
  | .uploadCall _ => true
  | _ => false

/-- Oracles for the external collaborators of an image task: the configured
backend, the per-attempt Stable-Diffusion result, the DALL-E result, the
download result by URL, upload success, and the current timestamp. -/
structure ImgEnv where
  backend : String
  sdResult : Nat → Option String
  dalleResult : Option String
  download : String → Option String
  uploadOk : Bool
  now : String

/-- The dictionary returned by `generate_and_store_step_image` on success
(`skipped` is present only on the existing-image short-circuit). -/
structure ImageData where
  image_url : String
  prompt : String
  generated_at : String
  skipped : Option Bool
deriving DecidableEq

/-- Result of one `generate_and_store_step_image` call: the returned value,
the object storage afterwards, and the collaborator calls made. -/
structure GenResult where
  result : Option ImageData
  storage : Storage
  trace : List ImgEvent
deriving DecidableEq

/-- The deterministic target filename, from recipe id and step number only
(`recipe_steps/recipe_\x7brecipe_id\x7d_step_\x7bstep_number\x7d.png`). -/
def stepImageFilename (recipe_id step_number : Nat) : String :=
  "recipe_steps/recipe_" ++ toString recipe_id ++ "_step_" ++
    toString step_number ++ ".png"

/-- `max_retries` in `generate_and_store_step_image`. -/
def max_retries : Nat := 2

/-- The Stable-Diffusion retry loop
(`for attempt in range(max_retries + 1)`): stop on the first successful
attempt; all generation calls are recorded. -/
def sd_retry_loop (env : ImgEnv) (prompt : String) :
    Nat → Nat → List ImgEvent × Option String
  | _, 0 => ([], none)
  | attempt, k + 1 =>
    match env.sdResult attempt with
    | some url => ([ImgEvent.sdCall prompt], some url)
    | none =>
      let r := sd_retry_loop env prompt (attempt + 1) k
      (ImgEvent.sdCall prompt :: r.1, r.2)

/-- The step's resolved ingredient names: `step_ingredients` rows of the step
joined to `recipe_ingredients` (null joins dropped). -/
def step_ingredient_names (db : DB) (sid : Nat) : List String :=
  (db.step_ingredients.filter (fun r => r.step_id == sid)).filterMap
    (fun r =>
      (db.recipe_ingredients.find? (fun q => q.id == r.ingredient_id)).map
        (fun q => q.name))

/-- The step's resolved equipment names: `step_equipment` rows of the step
joined to `recipe_equipment` (null joins dropped). -/
def step_equipment_names (db : DB) (sid : Nat) : List String :=
  (db.step_equipment.filter (fun r => r.step_id == sid)).filterMap
    (fun r =>
      (db.recipe_equipment.find? (fun q => q.id == r.equipment_id)).map
        (fun q => q.name))

/-- The prompt a step's task passes to the generation backend: the step's
ingredient and equipment names resolved through the per-recipe join rows, the
container inferred from the output when the equipment has none, the step's
output and its dependency steps' outputs fetched from the database, all fed
to `generate_step_image_prompt`. -/
def resolved_prompt (db : DB) (step_id : Nat)
    (step_instruction recipe_title : String) (recipe_id : Nat) : String :=
  let ingredients := step_ingredient_names db step_id
  let equipment0 := step_equipment_names db step_id
  let step_row := db.recipe_steps.find? (fun r => r.id == step_id)
  let step_output :=
    match step_row with
    | some r => r.output
    | none => none
  let has_container := equipment0.any (fun e =>
    container_keywords.any (fun k => strContains (pyLower e) k))
  let equipment :=
    if !has_container && strTruthy step_output then
      match container_keywords.find? (fun k =>
          strContains (pyLower (step_output.getD "")) k) with
      | some k => equipment0 ++ [pyCapitalize k]
      | none => equipment0
    else equipment0
  let dependency_outputs :=
    match step_row with
    | none => []
    | some r =>
      r.dependencies.filterMap (fun dep =>
        match db.recipe_steps.find? (fun q =>
            q.recipe_id == recipe_id && q.step_number == some dep) with
        | some q => if strTruthy q.output then some (q.output.getD "")
                    else none
        | none => none)
  generate_step_image_prompt step_instruction recipe_title ingredients
    equipment step_output dependency_outputs

/-- The `existsCheck` event, recorded only when the check runs. -/
def check_trace (check_existing : Bool) (filename : String) :
    List ImgEvent :=
  if check_existing then [ImgEvent.existsCheck filename] else []

/-- The backend dispatch: the Stable-Diffusion retry loop when that backend
is configured, otherwise a single DALL-E call. -/
def generation_phase (env : ImgEnv) (prompt : String) :
    List ImgEvent × Option String :=
  if env.backend == "stable_diffusion" then
    sd_retry_loop env prompt 0 (max_retries + 1)
  else ([ImgEvent.dalleCall prompt], env.dalleResult)

/-- Download the generated image and upload it to object storage under the
deterministic filename; any failure yields `none`. -/
def store_phase (env : ImgEnv) (storage : Storage)
    (filename prompt : String) (checkTrace : List ImgEvent)
    (genOut : List ImgEvent × Option String) : GenResult :=
  match genOut.2 with
  | none =>
    { result := none, storage := storage, trace := checkTrace ++ genOut.1 }
  | some image_url =>
    match env.download image_url with
    | none =>
      { result := none, storage := storage
        trace := checkTrace ++ genOut.1 }
    | some _bytes =>
      let up := upload_file_to_oci env.uploadOk storage filename
      match up.2 with
      | none =>
        { result := none, storage := up.1
          trace := checkTrace ++ genOut.1 ++ [ImgEvent.uploadCall filename] }
      | some oci_url =>
        { result := some
            { image_url := oci_url, prompt := prompt
              generated_at := env.now, skipped := none }
          storage := up.1
          trace := checkTrace ++ genOut.1 ++ [ImgEvent.uploadCall filename] }

/-- `generate_and_store_step_image`: check-existing short-circuit, ingredient
and equipment resolution, container inference from the output, dependency
output collection, prompt construction, backend-dependent generation with
retries, download, and upload.  The database reads are pure here; collaborator
failures come from the `ImgEnv` oracles, and the outer try/except of the
source cannot fire in this model. -/
def generate_and_store_step_image (env : ImgEnv) (db : DB)
    (storage : Storage) (step_id : Nat) (step_instruction : String)
    (recipe_title : String) (recipe_id step_number : Nat)
    (check_existing : Bool) : GenResult :=
  let filename := stepImageFilename recipe_id step_number
  if check_existing && object_exists storage filename then
    { result := some
        { image_url := get_object_url filename, prompt := "existing"
          generated_at := env.now, skipped := some true }
      storage := storage
      trace := [ImgEvent.existsCheck filename] }
  else
    let prompt := resolved_prompt db step_id step_instruction recipe_title
      recipe_id
    store_phase env storage filename prompt
      (check_trace check_existing filename) (generation_phase env prompt)

/-! ## background_tasks.py -/

/-- The result dictionary of a background image task or of waiting on one;
every optional field models the presence of the corresponding key. -/
structure ResultDict where
  success : Bool
  step_id : Option Nat := none
  error : Option String := none
  image_url : Option String := none
  prompt : Option String := none
  generated_at : Option String := none
  skipped : Option Bool := none
deriving DecidableEq

/-- What a finished background task left behind: its result dictionary, the
database (after the step-update callback), the object storage, and the
collaborator calls. -/
structure TaskOutput where
  result : ResultDict
  db : DB
  storage : Storage
  trace : List ImgEvent
deriving DecidableEq

/-- The `task()` closure of `generate_step_image_async`: run
`generate_and_store_step_image`; on a truthy result call
`update_recipe_step_image` and return a success dictionary merging the image
data; on `None` return a failure dictionary without an `error` key.  The
closure's own exception handler (which would add an `error` key) is
unreachable in this model because both callees catch their exceptions. -/
def generate_step_image_async_task (env : ImgEnv) (db : DB)
    (storage : Storage) (step_id step_number : Nat)
    (step_instruction : String) (recipe_id : Nat) (recipe_title : String)
    (check_existing : Bool) : TaskOutput :=
  let g := generate_and_store_step_image env db storage step_id
    step_instruction recipe_title recipe_id step_number check_existing
  match g.result with
  | some image_data =>
    let db2 := update_recipe_step_image db step_id image_data.image_url
      image_data.prompt
    { result :=
        { success := true, step_id := some step_id
          image_url := some image_data.image_url
          prompt := some image_data.prompt
          generated_at := some image_data.generated_at
          skipped := image_data.skipped }
      db := db2
      storage := g.storage
      trace := g.trace ++
        [ImgEvent.dbUpdateStepImage step_id image_data.image_url
          image_data.prompt] }
  | none =>
    { result := { success := false, step_id := some step_id }
      db := db
      storage := g.storage
      trace := g.trace }

/-- `wait_for_all_images`: each handle either resolves to its task's result
dictionary, or its blocking wait raises (timeout/cancellation, modelled as
`Except.error`), which is caught and converted to a failure entry carrying
the error text but no `step_id`.  The function itself never raises. -/
def wait_for_all_images (futures : List (Except String ResultDict)) :
    List ResultDict :=
  futures.map (fun f =>
    match f with
    | Except.ok r => r
    | Except.error e => { success := false, error := some e })

/-! ## Helper lemmas: fault-free database operations -/

theorem dbOp_clean {α : Type} (ev : List DbEv) (f : DB → DB × α) (s : St)
    (h : s.faults = []) :
    dbOp ev f s =
      (Except.ok (f s.db).2,
        { s with db := (f s.db).1, opIdx := s.opIdx + 1
                 trace := s.trace ++ ev }) := by
  simp [dbOp, h]

theorem dbRead_clean {α : Type} (f : DB → α) (s : St) (h : s.faults = []) :
    dbRead f s = (Except.ok (f s.db), { s with opIdx := s.opIdx + 1 }) := by
  simp [dbRead, dbOp, h]

theorem get_or_create_ingredient_clean (name : String) (s : St)
    (h : s.faults = []) (hn : 1 ≤ s.db.nextId)
    (hm : ∀ m ∈ s.db.ingredients, 1 ≤ m.id)
    (hname : (name == "") = false) :
    ∃ iid s',
      get_or_create_ingredient name s = (some iid, s') ∧
      1 ≤ iid ∧
      s'.faults = [] ∧ s'.spawns = s.spawns ∧
      s.db.nextId ≤ s'.db.nextId ∧
      (∀ m ∈ s'.db.ingredients, 1 ≤ m.id) ∧
      s'.db.recipes = s.db.recipes ∧
      s'.db.equipment = s.db.equipment ∧
      s'.db.recipe_ingredients = s.db.recipe_ingredients ∧
      s'.db.recipe_equipment = s.db.recipe_equipment ∧
      s'.db.recipe_steps = s.db.recipe_steps ∧
      s'.db.step_ingredients = s.db.step_ingredients ∧
      s'.db.step_equipment = s.db.step_equipment ∧
      ∃ tr, s'.trace = s.trace ++ tr ∧ ∀ e ∈ tr, e.isDelete = false := by
  unfold get_or_create_ingredient
  rw [hname]
  simp only [Bool.false_eq_true, if_false]
  rw [dbRead_clean _ _ h]
  cases hf : findIngredientIlike name s.db with
  | some i =>
    refine ⟨i, { s with opIdx := s.opIdx + 1 }, ?_, ?_, h, rfl,
      Nat.le_refl _, hm, rfl, rfl, rfl, rfl, rfl, rfl, rfl, [], by simp⟩
    · simp [andThen, caught, hf]
    · obtain ⟨r, hr, hri⟩ := Option.map_eq_some'.mp hf
      exact hri ▸ hm r (List.mem_of_find?_eq_some hr)
  | none =>
    refine ⟨s.db.nextId,
      { s with db := (ingredientsInsert name s.db).1, opIdx := s.opIdx + 1 + 1
               trace := s.trace ++ [DbEv.insIngredientsMaster] },
      ?_, hn, h, rfl, ?_, ?_, rfl, rfl, rfl, rfl, rfl, rfl, rfl,
      [DbEv.insIngredientsMaster], rfl, by simp [DbEv.isDelete]⟩
    · simp [andThen, hf, dbOp, h, caught, ingredientsInsert]
    · simp [ingredientsInsert]
    · intro m hmem
      simp only [ingredientsInsert, List.mem_append, List.mem_singleton]
        at hmem
      cases hmem with
      | inl hmem => exact hm m hmem
      | inr hmem => simpa [hmem] using hn

theorem get_or_create_equipment_clean (name : String) (s : St)
    (h : s.faults = []) (hn : 1 ≤ s.db.nextId)
    (hm : ∀ m ∈ s.db.equipment, 1 ≤ m.id)
    (hname : (name == "") = false) :
    ∃ eid s',
      get_or_create_equipment name s = (some eid, s') ∧
      1 ≤ eid ∧
      s'.faults = [] ∧ s'.spawns = s.spawns ∧
      s.db.nextId ≤ s'.db.nextId ∧
      (∀ m ∈ s'.db.equipment, 1 ≤ m.id) ∧
      s'.db.recipes = s.db.recipes ∧
      s'.db.ingredients = s.db.ingredients ∧
      s'.db.recipe_ingredients = s.db.recipe_ingredients ∧
      s'.db.recipe_equipment = s.db.recipe_equipment ∧
      s'.db.recipe_steps = s.db.recipe_steps ∧
      s'.db.step_ingredients = s.db.step_ingredients ∧
      s'.db.step_equipment = s.db.step_equipment ∧
      ∃ tr, s'.trace = s.trace ++ tr ∧ ∀ e ∈ tr, e.isDelete = false := by
  unfold get_or_create_equipment
  rw [hname]
  simp only [Bool.false_eq_true, if_false]
  rw [dbRead_clean _ _ h]
  cases hf : findEquipmentIlike name s.db with
  | some i =>
    refine ⟨i, { s with opIdx := s.opIdx + 1 }, ?_, ?_, h, rfl,
      Nat.le_refl _, hm, rfl, rfl, rfl, rfl, rfl, rfl, rfl, [], by simp⟩
    · simp [andThen, caught, hf]
    · obtain ⟨r, hr, hri⟩ := Option.map_eq_some'.mp hf
      exact hri ▸ hm r (List.mem_of_find?_eq_some hr)
  | none =>
    refine ⟨s.db.nextId,
      { s with db := (equipmentInsert name s.db).1, opIdx := s.opIdx + 1 + 1
               trace := s.trace ++ [DbEv.insEquipmentMaster] },
      ?_, hn, h, rfl, ?_, ?_, rfl, rfl, rfl, rfl, rfl, rfl, rfl,
      [DbEv.insEquipmentMaster], rfl, by simp [DbEv.isDelete]⟩
    · simp [andThen, hf, dbOp, h, caught, equipmentInsert]
    · simp [equipmentInsert]
    · intro m hmem
      simp only [equipmentInsert, List.mem_append, List.mem_singleton]
        at hmem
      cases hmem with
      | inl hmem => exact hm m hmem
      | inr hmem => simpa [hmem] using hn

/-- The caller-visible content of a `recipe_ingredients` row. -/
def ingContent (r : RecipeIngredientRow) : String × String × String :=
  (r.name, r.quantity, r.unit)

/-- The content a submitted ingredient record should produce. -/
def ingInputContent (i : IngredientInput) : String × String × String :=
  (i.name.getD "", i.quantity, i.unit)

/-- The caller-visible content of a `recipe_equipment` row. -/
def eqContent (r : RecipeEquipmentRow) : String := r.name

/-- The content a submitted equipment record should produce. -/
def eqInputContent (e : EquipmentInput) : String := e.name.getD ""

/-- The caller-visible content of a `recipe_steps` row. -/
def stepContent (r : StepRow) :
    Option Nat × String × Option String × List Nat :=
  (r.step_number, r.instruction, r.output, r.dependencies)

/-- The content a submitted step record should produce. -/
def stepInputContent (t : StepInput) :
    Option Nat × String × Option String × List Nat :=
  (pyOrNat t.step_number t.idField, t.instruction.getD "", t.output,
    t.dependencies)

theorem strTruthy_getD_ne (o : Option String) (h : strTruthy o = true) :
    (o.getD "" == "") = false := by
  cases o with
  | none => simp [strTruthy] at h
  | some v =>
    simp only [strTruthy, bne_iff_ne, ne_eq] at h
    simpa using h

theorem insert_recipe_ingredients_loop_clean (rid : Nat) :
    ∀ (l : List IngredientInput) (s : St),
    s.faults = [] → 1 ≤ s.db.nextId →
    (∀ m ∈ s.db.ingredients, 1 ≤ m.id) →
    (∀ i ∈ l, strTruthy i.name = true) →
    ∃ s' newRows,
      insert_recipe_ingredients_loop rid l s = (Except.ok (), s') ∧
      s'.faults = [] ∧ s'.spawns = s.spawns ∧
      s.db.nextId ≤ s'.db.nextId ∧
      (∀ m ∈ s'.db.ingredients, 1 ≤ m.id) ∧
      s'.db.recipes = s.db.recipes ∧
      s'.db.equipment = s.db.equipment ∧
      s'.db.recipe_equipment = s.db.recipe_equipment ∧
      s'.db.recipe_steps = s.db.recipe_steps ∧
      s'.db.step_ingredients = s.db.step_ingredients ∧
      s'.db.step_equipment = s.db.step_equipment ∧
      s'.db.recipe_ingredients = s.db.recipe_ingredients ++ newRows ∧
      newRows.map ingContent = l.map ingInputContent ∧
      (∀ r ∈ newRows, r.recipe_id = rid) ∧
      ∃ tr, s'.trace = s.trace ++ tr ∧ ∀ e ∈ tr, e.isDelete = false := by
  intro l
  induction l with
  | nil =>
    intro s h _ hm _
    exact ⟨s, [], rfl, h, rfl, Nat.le_refl _, hm, rfl, rfl, rfl, rfl, rfl,
      rfl, by simp, rfl, by simp, [], by simp⟩
  | cons ing rest ih =>
    intro s h hn hm hl
    have hname : strTruthy ing.name = true := hl ing (by simp)
    obtain ⟨iid, s1, hgoc, hiid, h1, hsp1, hn1, hm1, hrec1, heq1, hri1,
      hre1, hrs1, hsi1, hse1, tr1, htr1, htr1d⟩ :=
      get_or_create_ingredient_clean (ing.name.getD "") s h hn hm
        (strTruthy_getD_ne ing.name hname)
    have hnat : natTruthy (some iid) = true := by
      simp only [natTruthy, bne_iff_ne, ne_eq, decide_eq_true_eq]
      omega
    have hstep :
        insert_recipe_ingredients_loop rid (ing :: rest) s =
          andThen (dbOp [DbEv.insRecipeIngredients]
              (recipeIngredientsInsert rid iid (ing.name.getD "")
                ing.quantity ing.unit) s1)
            (fun _ s2 => insert_recipe_ingredients_loop rid rest s2) := by
      simp only [insert_recipe_ingredients_loop, hname, Bool.not_true,
        Bool.false_eq_true, if_false, hgoc, hnat, if_true]
      rfl
    rw [dbOp_clean _ _ _ h1] at hstep
    set s2 : St :=
      { s1 with
          db := (recipeIngredientsInsert rid iid (ing.name.getD "")
            ing.quantity ing.unit s1.db).1
          opIdx := s1.opIdx + 1
          trace := s1.trace ++ [DbEv.insRecipeIngredients] } with hs2
    have h2 : s2.faults = [] := h1
    have hn2 : 1 ≤ s2.db.nextId := by
      simp only [hs2, recipeIngredientsInsert]
      omega
    have hm2 : ∀ m ∈ s2.db.ingredients, 1 ≤ m.id := by
      simpa only [hs2, recipeIngredientsInsert] using hm1
    have hl2 : ∀ i ∈ rest, strTruthy i.name = true := by
      intro i hi; exact hl i (by simp [hi])
    obtain ⟨s3, rows, hloop, h3, hsp3, hn3, hm3, hrec3, heq3, hre3, hrs3,
      hsi3, hse3, hri3, hcontent3, hrid3, tr3, htr3, htr3d⟩ :=
      ih s2 h2 hn2 hm2 hl2
    refine ⟨s3,
      { id := s1.db.nextId, recipe_id := rid, ingredient_id := iid
        name := ing.name.getD "", quantity := ing.quantity
        unit := ing.unit } :: rows,
      ?_, h3, ?_, ?_, hm3, ?_, ?_, ?_, ?_, ?_, ?_, ?_, ?_, ?_, ?_⟩
    · rw [hstep]; simpa [andThen] using hloop
    · rw [hsp3]; simp [hs2, hsp1]
    · have : s2.db.nextId = s1.db.nextId + 1 := by
        simp [hs2, recipeIngredientsInsert]
      omega
    · rw [hrec3]; simp [hs2, recipeIngredientsInsert, hrec1]
    · rw [heq3]; simp [hs2, recipeIngredientsInsert, heq1]
    · rw [hre3]; simp [hs2, recipeIngredientsInsert, hre1]
    · rw [hrs3]; simp [hs2, recipeIngredientsInsert, hrs1]
    · rw [hsi3]; simp [hs2, recipeIngredientsInsert, hsi1]
    · rw [hse3]; simp [hs2, recipeIngredientsInsert, hse1]
    · rw [hri3]; simp [hs2, recipeIngredientsInsert, hri1]
    · simp only [List.map_cons, hcontent3, ingContent, ingInputContent]
    · intro r hr
      cases hr with
      | head => rfl
      | tail _ hr => exact hrid3 r hr
    · refine ⟨tr1 ++ [DbEv.insRecipeIngredients] ++ tr3, ?_, ?_⟩
      · rw [htr3]; simp [hs2, htr1]
      · intro e he
        simp only [List.mem_append, List.mem_singleton] at he
        rcases he with (he | he) | he
        · exact htr1d e he
        · simp [he, DbEv.isDelete]
        · exact htr3d e he

theorem insert_recipe_equipment_loop_clean (rid : Nat) :
    ∀ (l : List EquipmentInput) (s : St),
    s.faults = [] → 1 ≤ s.db.nextId →
    (∀ m ∈ s.db.equipment, 1 ≤ m.id) →
    (∀ e ∈ l, strTruthy e.name = true) →
    ∃ s' newRows,
      insert_recipe_equipment_loop rid l s = (Except.ok (), s') ∧
      s'.faults = [] ∧ s'.spawns = s.spawns ∧
      s.db.nextId ≤ s'.db.nextId ∧
      (∀ m ∈ s'.db.equipment, 1 ≤ m.id) ∧
      s'.db.recipes = s.db.recipes ∧
      s'.db.ingredients = s.db.ingredients ∧
      s'.db.recipe_ingredients = s.db.recipe_ingredients ∧
      s'.db.recipe_steps = s.db.recipe_steps ∧
      s'.db.step_ingredients = s.db.step_ingredients ∧
      s'.db.step_equipment = s.db.step_equipment ∧
      s'.db.recipe_equipment = s.db.recipe_equipment ++ newRows ∧
      newRows.map eqContent = l.map eqInputContent ∧
      (∀ r ∈ newRows, r.recipe_id = rid) ∧
      ∃ tr, s'.trace = s.trace ++ tr ∧ ∀ e ∈ tr, e.isDelete = false := by
  intro l
  induction l with
  | nil =>
    intro s h _ hm _
    exact ⟨s, [], rfl, h, rfl, Nat.le_refl _, hm, rfl, rfl, rfl, rfl, rfl,
      rfl, by simp, rfl, by simp, [], by simp⟩
  | cons eqp rest ih =>
    intro s h hn hm hl
    have hname : strTruthy eqp.name = true := hl eqp (by simp)
    obtain ⟨eid, s1, hgoc, heid, h1, hsp1, hn1, hm1, hrec1, hin1, hri1,
      hre1, hrs1, hsi1, hse1, tr1, htr1, htr1d⟩ :=
      get_or_create_equipment_clean (eqp.name.getD "") s h hn hm
        (strTruthy_getD_ne eqp.name hname)
    have hnat : natTruthy (some eid) = true := by
      simp only [natTruthy, bne_iff_ne, ne_eq, decide_eq_true_eq]
      omega
    have hstep :
        insert_recipe_equipment_loop rid (eqp :: rest) s =
          andThen (dbOp [DbEv.insRecipeEquipment]
              (recipeEquipmentInsert rid eid (eqp.name.getD "")) s1)
            (fun _ s2 => insert_recipe_equipment_loop rid rest s2) := by
      simp only [insert_recipe_equipment_loop, hname, Bool.not_true,
        Bool.false_eq_true, if_false, hgoc, hnat, if_true]
      rfl
    rw [dbOp_clean _ _ _ h1] at hstep
    set s2 : St :=
      { s1 with
          db := (recipeEquipmentInsert rid eid (eqp.name.getD "") s1.db).1
          opIdx := s1.opIdx + 1
          trace := s1.trace ++ [DbEv.insRecipeEquipment] } with hs2
    have h2 : s2.faults = [] := h1
    have hn2 : 1 ≤ s2.db.nextId := by
      simp only [hs2, recipeEquipmentInsert]
      omega
    have hm2 : ∀ m ∈ s2.db.equipment, 1 ≤ m.id := by
      simpa only [hs2, recipeEquipmentInsert] using hm1
    have hl2 : ∀ e ∈ rest, strTruthy e.name = true := by
      intro e he; exact hl e (by simp [he])
    obtain ⟨s3, rows, hloop, h3, hsp3, hn3, hm3, hrec3, hin3, hri3, hrs3,
      hsi3, hse3, hre3, hcontent3, hrid3, tr3, htr3, htr3d⟩ :=
      ih s2 h2 hn2 hm2 hl2
    refine ⟨s3,
      { id := s1.db.nextId, recipe_id := rid, equipment_id := eid
        name := eqp.name.getD "" } :: rows,
      ?_, h3, ?_, ?_, hm3, ?_, ?_, ?_, ?_, ?_, ?_, ?_, ?_, ?_, ?_⟩
    · rw [hstep]; simpa [andThen] using hloop
    · rw [hsp3]; simp [hs2, hsp1]
    · have : s2.db.nextId = s1.db.nextId + 1 := by
        simp [hs2, recipeEquipmentInsert]
      omega
    · rw [hrec3]; simp [hs2, recipeEquipmentInsert, hrec1]
    · rw [hin3]; simp [hs2, recipeEquipmentInsert, hin1]
    · rw [hri3]; simp [hs2, recipeEquipmentInsert, hri1]
    · rw [hrs3]; simp [hs2, recipeEquipmentInsert, hrs1]
    · rw [hsi3]; simp [hs2, recipeEquipmentInsert, hsi1]
    · rw [hse3]; simp [hs2, recipeEquipmentInsert, hse1]
    · rw [hre3]; simp [hs2, recipeEquipmentInsert, hre1]
    · simp only [List.map_cons, hcontent3, eqContent, eqInputContent]
    · intro r hr
      cases hr with
      | head => rfl
      | tail _ hr => exact hrid3 r hr
    · refine ⟨tr1 ++ [DbEv.insRecipeEquipment] ++ tr3, ?_, ?_⟩
      · rw [htr3]; simp [hs2, htr1]
      · intro e he
        simp only [List.mem_append, List.mem_singleton] at he
        rcases he with (he | he) | he
        · exact htr1d e he
        · simp [he, DbEv.isDelete]
        · exact htr3d e he

theorem andThen_ok {α β : Type} (a : α) (s : St)
    (f : α → St → Except String β × St) :
    andThen (Except.ok a, s) f = f a s := rfl

theorem andThen_error {α β : Type} (e : String) (s : St)
    (f : α → St → Except String β × St) :
    andThen (Except.error e, s) f = (Except.error e, s) := rfl

theorem caught_ok {α : Type} (a : α) (s : St) (d : α) :
    caught (Except.ok a, s) d = (a, s) := rfl

theorem caught_error {α : Type} (e : String) (s : St) (d : α) :
    caught (Except.error e, s) d = (d, s) := rfl

theorem get_existing_clean (title : Option String) (s : St)
    (h : s.faults = []) (ht : strTruthy title = true) :
    get_existing_recipe_by_title title s =
      (selectRecipeByTitleIlike (title.getD "") s.db,
        { s with opIdx := s.opIdx + 1 }) := by
  unfold get_existing_recipe_by_title
  rw [ht]
  simp only [Bool.not_true, Bool.false_eq_true, if_false]
  rw [dbRead_clean _ _ h, caught_ok]

theorem update_recipe_clean (rid : Nat) (rd : RecipeData) (s : St)
    (h : s.faults = []) :
    update_recipe rid rd s =
      { s with
          db := (recipesUpdate rid (recipe_scalar_fields rd) s.db).1
          opIdx := s.opIdx + 1
          trace := s.trace ++ [DbEv.updRecipes rid] } := by
  unfold update_recipe
  rw [dbOp_clean _ _ _ h, caught_ok]

theorem delete_step_joins_loop_clean :
    ∀ (ids : List Nat) (s : St), s.faults = [] →
    ∃ s', delete_step_joins_loop ids s = (Except.ok (), s') ∧
      s'.faults = [] ∧ s'.spawns = s.spawns ∧
      s'.db.recipes = s.db.recipes ∧
      s'.db.ingredients = s.db.ingredients ∧
      s'.db.equipment = s.db.equipment ∧
      s'.db.recipe_ingredients = s.db.recipe_ingredients ∧
      s'.db.recipe_equipment = s.db.recipe_equipment ∧
      s'.db.recipe_steps = s.db.recipe_steps ∧
      s'.db.nextId = s.db.nextId ∧
      s'.db.step_ingredients =
        s.db.step_ingredients.filter (fun r => !ids.contains r.step_id) ∧
      s'.db.step_equipment =
        s.db.step_equipment.filter (fun r => !ids.contains r.step_id) ∧
      ∃ tr, s'.trace = s.trace ++ tr ∧ ∀ e ∈ tr, e.isDelete = true := by
  intro ids
  induction ids with
  | nil =>
    intro s h
    exact ⟨s, rfl, h, rfl, rfl, rfl, rfl, rfl, rfl, rfl, rfl, by simp,
      by simp, [], by simp⟩
  | cons sid rest ih =>
    intro s h
    have hstep :
        delete_step_joins_loop (sid :: rest) s =
          delete_step_joins_loop rest
            { s with
                db := (deleteStepEquipmentByStep sid
                  (deleteStepIngredientsByStep sid s.db).1).1
                opIdx := s.opIdx + 1 + 1
                trace := (s.trace ++ [DbEv.delStepIngredients sid]) ++
                  [DbEv.delStepEquipment sid] } := by
      show andThen _ _ = _
      rw [dbOp_clean _ _ _ h, andThen_ok, dbOp_clean, andThen_ok]
      exact h
    obtain ⟨s', hloop, h', hsp', hrec', hing', heqp', hri', hre', hrs',
      hni', hsi', hse', tr', htr', htr'd⟩ :=
      ih { s with
            db := (deleteStepEquipmentByStep sid
              (deleteStepIngredientsByStep sid s.db).1).1
            opIdx := s.opIdx + 1 + 1
            trace := (s.trace ++ [DbEv.delStepIngredients sid]) ++
              [DbEv.delStepEquipment sid] } h
    refine ⟨s', hstep ▸ hloop, h', hsp', hrec', hing', heqp', hri', hre',
      hrs', hni', ?_, ?_, [DbEv.delStepIngredients sid,
        DbEv.delStepEquipment sid] ++ tr', ?_, ?_⟩
    · rw [hsi']
      simp only [deleteStepEquipmentByStep, deleteStepIngredientsByStep,
        List.filter_filter]
      apply List.filter_congr
      intro r _
      simp only [List.contains_cons, Bool.not_or]
      rw [Bool.and_comm]
    · rw [hse']
      simp only [deleteStepEquipmentByStep, deleteStepIngredientsByStep,
        List.filter_filter]
      apply List.filter_congr
      intro r _
      simp only [List.contains_cons, Bool.not_or]
      rw [Bool.and_comm]
    · rw [htr']
      simp
    · intro e he
      simp only [List.mem_append, List.mem_cons, List.mem_singleton] at he
      rcases he with (he | he | he) | he
      · simp [he, DbEv.isDelete]
      · simp [he, DbEv.isDelete]
      · simp at he
      · exact htr'd e he

theorem delete_recipe_data_clean (rid : Nat) (s : St) (h : s.faults = []) :
    ∃ s', delete_recipe_data rid s = s' ∧
      s'.faults = [] ∧ s'.spawns = s.spawns ∧
      s'.db.recipes = s.db.recipes ∧
      s'.db.ingredients = s.db.ingredients ∧
      s'.db.equipment = s.db.equipment ∧
      s'.db.nextId = s.db.nextId ∧
      s'.db.recipe_steps =
        s.db.recipe_steps.filter (fun r => !(r.recipe_id == rid)) ∧
      s'.db.recipe_ingredients =
        s.db.recipe_ingredients.filter (fun r => !(r.recipe_id == rid)) ∧
      s'.db.recipe_equipment =
        s.db.recipe_equipment.filter (fun r => !(r.recipe_id == rid)) ∧
      s'.db.step_ingredients =
        s.db.step_ingredients.filter (fun r =>
          !((selectStepIdsByRecipe rid s.db).contains r.step_id)) ∧
      s'.db.step_equipment =
        s.db.step_equipment.filter (fun r =>
          !((selectStepIdsByRecipe rid s.db).contains r.step_id)) ∧
      ∃ tr, s'.trace = s.trace ++ tr ∧ ∀ e ∈ tr, e.isDelete = true := by
  obtain ⟨s2, hloop, h2, hsp2, hrec2, hing2, heqp2, hri2, hre2, hrs2, hni2,
    hsi2, hse2, tr2, htr2, htr2d⟩ :=
    delete_step_joins_loop_clean (selectStepIdsByRecipe rid s.db)
      { s with opIdx := s.opIdx + 1 } h
  have hcomp : delete_recipe_data rid s =
      { s2 with
          db := (deleteRecipeEquipmentByRecipe rid
            (deleteRecipeIngredientsByRecipe rid
              (deleteStepsByRecipe rid s2.db).1).1).1
          opIdx := s2.opIdx + 1 + 1 + 1
          trace := ((s2.trace ++ [DbEv.delRecipeSteps rid]) ++
            [DbEv.delRecipeIngredients rid]) ++
            [DbEv.delRecipeEquipment rid] } := by
    unfold delete_recipe_data
    rw [dbRead_clean _ _ h, andThen_ok, hloop, andThen_ok]
    rw [dbOp_clean _ _ _ h2, andThen_ok, dbOp_clean, andThen_ok, dbOp_clean,
      caught_ok]
    · exact h2
    · exact h2
  refine ⟨_, hcomp, h2, hsp2, ?_, ?_, ?_, ?_, ?_, ?_, ?_, ?_, ?_,
    tr2 ++ [DbEv.delRecipeSteps rid, DbEv.delRecipeIngredients rid,
      DbEv.delRecipeEquipment rid], ?_, ?_⟩
  · simpa [deleteRecipeEquipmentByRecipe, deleteRecipeIngredientsByRecipe,
      deleteStepsByRecipe] using hrec2
  · simpa [deleteRecipeEquipmentByRecipe, deleteRecipeIngredientsByRecipe,
      deleteStepsByRecipe] using hing2
  · simpa [deleteRecipeEquipmentByRecipe, deleteRecipeIngredientsByRecipe,
      deleteStepsByRecipe] using heqp2
  · simpa [deleteRecipeEquipmentByRecipe, deleteRecipeIngredientsByRecipe,
      deleteStepsByRecipe] using hni2
  · simp only [deleteRecipeEquipmentByRecipe,
      deleteRecipeIngredientsByRecipe, deleteStepsByRecipe]
    rw [hrs2]
  · simp only [deleteRecipeEquipmentByRecipe,
      deleteRecipeIngredientsByRecipe, deleteStepsByRecipe]
    rw [hri2]
  · simp only [deleteRecipeEquipmentByRecipe,
      deleteRecipeIngredientsByRecipe, deleteStepsByRecipe]
    rw [hre2]
  · simp only [deleteRecipeEquipmentByRecipe,
      deleteRecipeIngredientsByRecipe, deleteStepsByRecipe]
    rw [hsi2]
  · simp only [deleteRecipeEquipmentByRecipe,
      deleteRecipeIngredientsByRecipe, deleteStepsByRecipe]
    rw [hse2]
  · rw [htr2]
    simp
  · intro e he
    simp only [List.mem_append, List.mem_cons] at he
    rcases he with he | he | he | he | he
    · exact htr2d e he
    · simp [he, DbEv.isDelete]
    · simp [he, DbEv.isDelete]
    · simp [he, DbEv.isDelete]
    · simp at he

/-- The step-ingredient join rows that `_insert_step_ingredients` should
produce: one row per named reference whose name matches a
`recipe_ingredients` row of the same recipe case-insensitively (the first
match wins); unnamed or unresolved references produce nothing. -/
def resolve_step_ing (ril : List RecipeIngredientRow) (rid sid : Nat)
    (ings : List IngredientInput) : List StepIngredientRow :=
  ings.filterMap (fun i =>
    if strTruthy i.name then
      match (ril.find? (fun r =>
          r.recipe_id == rid && ilikeEq r.name (i.name.getD ""))).map
          (fun r => r.id) with
      | some riid => some { step_id := sid, ingredient_id := riid }
      | none => none
    else none)

/-- The step-equipment analogue of `resolve_step_ing`. -/
def resolve_step_eq (rel : List RecipeEquipmentRow) (rid sid : Nat)
    (eqs : List EquipmentInput) : List StepEquipmentRow :=
  eqs.filterMap (fun e =>
    if strTruthy e.name then
      match (rel.find? (fun r =>
          r.recipe_id == rid && ilikeEq r.name (e.name.getD ""))).map
          (fun r => r.id) with
      | some reid => some { step_id := sid, equipment_id := reid }
      | none => none
    else none)

theorem resolve_step_ing_step_id (ril : List RecipeIngredientRow)
    (rid sid : Nat) (ings : List IngredientInput) :
    ∀ j ∈ resolve_step_ing ril rid sid ings, j.step_id = sid := by
  intro j hj
  simp only [resolve_step_ing, List.mem_filterMap] at hj
  obtain ⟨i, _, hi⟩ := hj
  split at hi
  · split at hi
    · cases hi; rfl
    · cases hi
  · cases hi

theorem resolve_step_eq_step_id (rel : List RecipeEquipmentRow)
    (rid sid : Nat) (eqs : List EquipmentInput) :
    ∀ j ∈ resolve_step_eq rel rid sid eqs, j.step_id = sid := by
  intro j hj
  simp only [resolve_step_eq, List.mem_filterMap] at hj
  obtain ⟨e, _, he⟩ := hj
  split at he
  · split at he
    · cases he; rfl
    · cases he
  · cases he

theorem step_ing_loop_clean (sid rid : Nat) :
    ∀ (ings : List IngredientInput) (s : St), s.faults = [] →
    ∃ s', step_ing_loop sid rid ings s = (Except.ok (), s') ∧
      s'.faults = [] ∧ s'.spawns = s.spawns ∧
      s'.db.recipes = s.db.recipes ∧
      s'.db.ingredients = s.db.ingredients ∧
      s'.db.equipment = s.db.equipment ∧
      s'.db.recipe_ingredients = s.db.recipe_ingredients ∧
      s'.db.recipe_equipment = s.db.recipe_equipment ∧
      s'.db.recipe_steps = s.db.recipe_steps ∧
      s'.db.step_equipment = s.db.step_equipment ∧
      s'.db.nextId = s.db.nextId ∧
      s'.db.step_ingredients = s.db.step_ingredients ++
        resolve_step_ing s.db.recipe_ingredients rid sid ings ∧
      ∃ tr, s'.trace = s.trace ++ tr ∧ ∀ e ∈ tr, e.isDelete = false := by
  intro ings
  induction ings with
  | nil =>
    intro s h
    exact ⟨s, rfl, h, rfl, rfl, rfl, rfl, rfl, rfl, rfl, rfl, rfl,
      by simp [resolve_step_ing], [], by simp⟩
  | cons ing rest ih =>
    intro s h
    by_cases hname : strTruthy ing.name = true
    · have hunf : step_ing_loop sid rid (ing :: rest) s =
          andThen (dbRead (selectRecipeIngredientIdByName rid
            (ing.name.getD "")) s) (fun found s1 =>
              match found with
              | some riid =>
                andThen (dbOp [DbEv.insStepIngredients]
                    (stepIngredientsInsert sid riid) s1)
                  (fun _ s2 => step_ing_loop sid rid rest s2)
              | none => step_ing_loop sid rid rest s1) := by
        simp only [step_ing_loop, hname, Bool.not_true, Bool.false_eq_true,
          if_false]
      rw [dbRead_clean _ _ h, andThen_ok] at hunf
      cases hf : selectRecipeIngredientIdByName rid (ing.name.getD "") s.db
        with
      | some riid =>
        simp only [hf] at hunf
        rw [dbOp_clean _ _ { s with opIdx := s.opIdx + 1 } h, andThen_ok]
          at hunf
        obtain ⟨s', hloop, h', hsp', hrec', hing', heqp', hri', hre', hrs',
          hse', hni', hsi', tr', htr', htr'd⟩ :=
          ih { { s with opIdx := s.opIdx + 1 } with
                db := (stepIngredientsInsert sid riid s.db).1
                opIdx := s.opIdx + 1 + 1
                trace := s.trace ++ [DbEv.insStepIngredients] } h
        refine ⟨s', hunf ▸ hloop, h', ?_, ?_, ?_, ?_, ?_, ?_, ?_, ?_, ?_,
          ?_, [DbEv.insStepIngredients] ++ tr', ?_, ?_⟩
        · simpa [stepIngredientsInsert] using hsp'
        · simpa [stepIngredientsInsert] using hrec'
        · simpa [stepIngredientsInsert] using hing'
        · simpa [stepIngredientsInsert] using heqp'
        · simpa [stepIngredientsInsert] using hri'
        · simpa [stepIngredientsInsert] using hre'
        · simpa [stepIngredientsInsert] using hrs'
        · simpa [stepIngredientsInsert] using hse'
        · simpa [stepIngredientsInsert] using hni'
        · rw [hsi']
          simp only [stepIngredientsInsert, resolve_step_ing,
            List.filterMap_cons, hname, if_true]
          rw [show (s.db.recipe_ingredients.find? (fun r =>
              r.recipe_id == rid && ilikeEq r.name (ing.name.getD ""))).map
              (fun r => r.id) =
              selectRecipeIngredientIdByName rid (ing.name.getD "") s.db
            from rfl, hf]
          simp [resolve_step_ing, stepIngredientsInsert]
        · rw [htr']; simp
        · intro e he
          simp only [List.mem_append, List.mem_singleton] at he
          rcases he with he | he
          · simp [he, DbEv.isDelete]
          · exact htr'd e he
      | none =>
        simp only [hf] at hunf
        obtain ⟨s', hloop, h', hsp', hrec', hing', heqp', hri', hre', hrs',
          hse', hni', hsi', tr', htr', htr'd⟩ :=
          ih { s with opIdx := s.opIdx + 1 } h
        refine ⟨s', hunf ▸ hloop, h', hsp', hrec', hing', heqp', hri', hre',
          hrs', hse', hni', ?_, tr', htr', htr'd⟩
        rw [hsi']
        simp only [resolve_step_ing, List.filterMap_cons, hname, if_true]
        rw [show (s.db.recipe_ingredients.find? (fun r =>
            r.recipe_id == rid && ilikeEq r.name (ing.name.getD ""))).map
            (fun r => r.id) =
            selectRecipeIngredientIdByName rid (ing.name.getD "") s.db
          from rfl, hf]
    · have hname' : strTruthy ing.name = false := by
        simpa using hname
      have hunf : step_ing_loop sid rid (ing :: rest) s =
          step_ing_loop sid rid rest s := by
        simp only [step_ing_loop, hname', Bool.not_false, if_true]
      obtain ⟨s', hloop, rest'⟩ := ih s h
      refine ⟨s', hunf ▸ hloop, ?_⟩
      have : resolve_step_ing s.db.recipe_ingredients rid sid (ing :: rest) =
          resolve_step_ing s.db.recipe_ingredients rid sid rest := by
        simp [resolve_step_ing, List.filterMap_cons, hname']
      rw [this]
      exact rest'

theorem step_eq_loop_clean (sid rid : Nat) :
    ∀ (eqs : List EquipmentInput) (s : St), s.faults = [] →
    ∃ s', step_eq_loop sid rid eqs s = (Except.ok (), s') ∧
      s'.faults = [] ∧ s'.spawns = s.spawns ∧
      s'.db.recipes = s.db.recipes ∧
      s'.db.ingredients = s.db.ingredients ∧
      s'.db.equipment = s.db.equipment ∧
      s'.db.recipe_ingredients = s.db.recipe_ingredients ∧
      s'.db.recipe_equipment = s.db.recipe_equipment ∧
      s'.db.recipe_steps = s.db.recipe_steps ∧
      s'.db.step_ingredients = s.db.step_ingredients ∧
      s'.db.nextId = s.db.nextId ∧
      s'.db.step_equipment = s.db.step_equipment ++
        resolve_step_eq s.db.recipe_equipment rid sid eqs ∧
      ∃ tr, s'.trace = s.trace ++ tr ∧ ∀ e ∈ tr, e.isDelete = false := by
  intro eqs
  induction eqs with
  | nil =>
    intro s h
    exact ⟨s, rfl, h, rfl, rfl, rfl, rfl, rfl, rfl, rfl, rfl, rfl,
      by simp [resolve_step_eq], [], by simp⟩
  | cons eqp rest ih =>
    intro s h
    by_cases hname : strTruthy eqp.name = true
    · have hunf : step_eq_loop sid rid (eqp :: rest) s =
          andThen (dbRead (selectRecipeEquipmentIdByName rid
            (eqp.name.getD "")) s) (fun found s1 =>
              match found with
              | some reid =>
                andThen (dbOp [DbEv.insStepEquipment]
                    (stepEquipmentInsert sid reid) s1)
                  (fun _ s2 => step_eq_loop sid rid rest s2)
              | none => step_eq_loop sid rid rest s1) := by
        simp only [step_eq_loop, hname, Bool.not_true, Bool.false_eq_true,
          if_false]
      rw [dbRead_clean _ _ h, andThen_ok] at hunf
      cases hf : selectRecipeEquipmentIdByName rid (eqp.name.getD "") s.db
        with
      | some reid =>
        simp only [hf] at hunf
        rw [dbOp_clean _ _ { s with opIdx := s.opIdx + 1 } h, andThen_ok]
          at hunf
        obtain ⟨s', hloop, h', hsp', hrec', hing', heqp', hri', hre', hrs',
          hse', hni', hsi', tr', htr', htr'd⟩ :=
          ih { { s with opIdx := s.opIdx + 1 } with
                db := (stepEquipmentInsert sid reid s.db).1
                opIdx := s.opIdx + 1 + 1
                trace := s.trace ++ [DbEv.insStepEquipment] } h
        refine ⟨s', hunf ▸ hloop, h', ?_, ?_, ?_, ?_, ?_, ?_, ?_, ?_, ?_,
          ?_, [DbEv.insStepEquipment] ++ tr', ?_, ?_⟩
        · simpa [stepEquipmentInsert] using hsp'
        · simpa [stepEquipmentInsert] using hrec'
        · simpa [stepEquipmentInsert] using hing'
        · simpa [stepEquipmentInsert] using heqp'
        · simpa [stepEquipmentInsert] using hri'
        · simpa [stepEquipmentInsert] using hre'
        · simpa [stepEquipmentInsert] using hrs'
        · simpa [stepEquipmentInsert] using hse'
        · simpa [stepEquipmentInsert] using hni'
        · rw [hsi']
          simp only [stepEquipmentInsert, resolve_step_eq,
            List.filterMap_cons, hname, if_true]
          rw [show (s.db.recipe_equipment.find? (fun r =>
              r.recipe_id == rid && ilikeEq r.name (eqp.name.getD ""))).map
              (fun r => r.id) =
              selectRecipeEquipmentIdByName rid (eqp.name.getD "") s.db
            from rfl, hf]
          simp [resolve_step_eq, stepEquipmentInsert]
        · rw [htr']; simp
        · intro e he
          simp only [List.mem_append, List.mem_singleton] at he
          rcases he with he | he
          · simp [he, DbEv.isDelete]
          · exact htr'd e he
      | none =>
        simp only [hf] at hunf
        obtain ⟨s', hloop, h', hsp', hrec', hing', heqp', hri', hre', hrs',
          hse', hni', hsi', tr', htr', htr'd⟩ :=
          ih { s with opIdx := s.opIdx + 1 } h
        refine ⟨s', hunf ▸ hloop, h', hsp', hrec', hing', heqp', hri', hre',
          hrs', hse', hni', ?_, tr', htr', htr'd⟩
        rw [hsi']
        simp only [resolve_step_eq, List.filterMap_cons, hname, if_true]
        rw [show (s.db.recipe_equipment.find? (fun r =>
            r.recipe_id == rid && ilikeEq r.name (eqp.name.getD ""))).map
            (fun r => r.id) =
            selectRecipeEquipmentIdByName rid (eqp.name.getD "") s.db
          from rfl, hf]
    · have hname' : strTruthy eqp.name = false := by
        simpa using hname
      have hunf : step_eq_loop sid rid (eqp :: rest) s =
          step_eq_loop sid rid rest s := by
        simp only [step_eq_loop, hname', Bool.not_false, if_true]
      obtain ⟨s', hloop, rest'⟩ := ih s h
      refine ⟨s', hunf ▸ hloop, ?_⟩
      have : resolve_step_eq s.db.recipe_equipment rid sid (eqp :: rest) =
          resolve_step_eq s.db.recipe_equipment rid sid rest := by
        simp [resolve_step_eq, List.filterMap_cons, hname']
      rw [this]
      exact rest'


theorem insert_step_ingredients_clean (sid : Nat)
    (ings : List IngredientInput) (s : St) (h : s.faults = []) :
    ∃ s' nj, insert_step_ingredients sid ings s = s' ∧
      s'.faults = [] ∧ s'.spawns = s.spawns ∧
      s'.db.recipes = s.db.recipes ∧
      s'.db.ingredients = s.db.ingredients ∧
      s'.db.equipment = s.db.equipment ∧
      s'.db.recipe_ingredients = s.db.recipe_ingredients ∧
      s'.db.recipe_equipment = s.db.recipe_equipment ∧
      s'.db.recipe_steps = s.db.recipe_steps ∧
      s'.db.step_equipment = s.db.step_equipment ∧
      s'.db.nextId = s.db.nextId ∧
      s'.db.step_ingredients = s.db.step_ingredients ++ nj ∧
      (∀ j ∈ nj, j.step_id = sid) ∧
      (∀ rid, selectStepRecipeId sid s.db = some rid →
        nj = resolve_step_ing s.db.recipe_ingredients rid sid ings) ∧
      (selectStepRecipeId sid s.db = none → nj = []) ∧
      ∃ tr, s'.trace = s.trace ++ tr ∧ ∀ e ∈ tr, e.isDelete = false := by
  unfold insert_step_ingredients
  rw [dbRead_clean _ _ h, andThen_ok]
  cases hsel : selectStepRecipeId sid s.db with
  | none =>
    simp only [hsel, caught_ok]
    exact ⟨_, [], rfl, h, rfl, rfl, rfl, rfl, rfl, rfl, rfl, rfl, rfl,
      by simp, by simp, fun rid hrid => by simp at hrid, fun _ => rfl,
      [], by simp⟩
  | some rid =>
    simp only [hsel]
    obtain ⟨s', hloop, h', hsp', hrec', hing', heqp', hri', hre', hrs',
      hse', hni', hsi', tr', htr', htr'd⟩ :=
      step_ing_loop_clean sid rid ings { s with opIdx := s.opIdx + 1 } h
    rw [hloop, caught_ok]
    refine ⟨s', resolve_step_ing s.db.recipe_ingredients rid sid ings, rfl,
      h', hsp', hrec', hing', heqp', hri', hre', hrs', hse', hni', hsi',
      resolve_step_ing_step_id _ _ _ _, ?_, ?_, tr', htr', htr'd⟩
    · intro rid' hrid'
      cases hrid'
      rfl
    · intro hcontra
      cases hcontra

theorem insert_step_equipment_clean (sid : Nat)
    (eqs : List EquipmentInput) (s : St) (h : s.faults = []) :
    ∃ s' nj, insert_step_equipment sid eqs s = s' ∧
      s'.faults = [] ∧ s'.spawns = s.spawns ∧
      s'.db.recipes = s.db.recipes ∧
      s'.db.ingredients = s.db.ingredients ∧
      s'.db.equipment = s.db.equipment ∧
      s'.db.recipe_ingredients = s.db.recipe_ingredients ∧
      s'.db.recipe_equipment = s.db.recipe_equipment ∧
      s'.db.recipe_steps = s.db.recipe_steps ∧
      s'.db.step_ingredients = s.db.step_ingredients ∧
      s'.db.nextId = s.db.nextId ∧
      s'.db.step_equipment = s.db.step_equipment ++ nj ∧
      (∀ j ∈ nj, j.step_id = sid) ∧
      (∀ rid, selectStepRecipeId sid s.db = some rid →
        nj = resolve_step_eq s.db.recipe_equipment rid sid eqs) ∧
      (selectStepRecipeId sid s.db = none → nj = []) ∧
      ∃ tr, s'.trace = s.trace ++ tr ∧ ∀ e ∈ tr, e.isDelete = false := by
  unfold insert_step_equipment
  rw [dbRead_clean _ _ h, andThen_ok]
  cases hsel : selectStepRecipeId sid s.db with
  | none =>
    simp only [hsel, caught_ok]
    exact ⟨_, [], rfl, h, rfl, rfl, rfl, rfl, rfl, rfl, rfl, rfl, rfl,
      by simp, by simp, fun rid hrid => by simp at hrid, fun _ => rfl,
      [], by simp⟩
  | some rid =>
    simp only [hsel]
    obtain ⟨s', hloop, h', hsp', hrec', hing', heqp', hri', hre', hrs',
      hsi', hni', hse', tr', htr', htr'd⟩ :=
      step_eq_loop_clean sid rid eqs { s with opIdx := s.opIdx + 1 } h
    rw [hloop, caught_ok]
    refine ⟨s', resolve_step_eq s.db.recipe_equipment rid sid eqs, rfl,
      h', hsp', hrec', hing', heqp', hri', hre', hrs', hsi', hni', hse',
      resolve_step_eq_step_id _ _ _ _, ?_, ?_, tr', htr', htr'd⟩
    · intro rid' hrid'
      cases hrid'
      rfl
    · intro hcontra
      cases hcontra

theorem step_ing_phase_clean (sid : Nat) (l : List IngredientInput)
    (s : St) (h : s.faults = []) :
    ∃ s' nj,
      (if !l.isEmpty then insert_step_ingredients sid l s else s) = s' ∧
      s'.faults = [] ∧
      s'.db.recipes = s.db.recipes ∧
      s'.db.ingredients = s.db.ingredients ∧
      s'.db.equipment = s.db.equipment ∧
      s'.db.recipe_ingredients = s.db.recipe_ingredients ∧
      s'.db.recipe_equipment = s.db.recipe_equipment ∧
      s'.db.recipe_steps = s.db.recipe_steps ∧
      s'.db.step_equipment = s.db.step_equipment ∧
      s'.db.nextId = s.db.nextId ∧
      s'.db.step_ingredients = s.db.step_ingredients ++ nj ∧
      (∀ j ∈ nj, j.step_id = sid) ∧
      ∃ tr, s'.trace = s.trace ++ tr ∧ ∀ e ∈ tr, e.isDelete = false := by
  by_cases he : l.isEmpty
  · refine ⟨s, [], ?_, h, rfl, rfl, rfl, rfl, rfl, rfl, rfl, rfl, by simp,
      by simp, [], by simp⟩
    simp [he]
  · obtain ⟨s', nj, heq, h', _, hrec', hing', heqp', hri', hre', hrs',
      hse', hni', hsi', hjid, _, _, tr', htr', htr'd⟩ :=
      insert_step_ingredients_clean sid l s h
    refine ⟨s', nj, ?_, h', hrec', hing', heqp', hri', hre', hrs', hse',
      hni', hsi', hjid, tr', htr', htr'd⟩
    simp [he, heq]

theorem step_eq_phase_clean (sid : Nat) (l : List EquipmentInput)
    (s : St) (h : s.faults = []) :
    ∃ s' nj,
      (if !l.isEmpty then insert_step_equipment sid l s else s) = s' ∧
      s'.faults = [] ∧
      s'.db.recipes = s.db.recipes ∧
      s'.db.ingredients = s.db.ingredients ∧
      s'.db.equipment = s.db.equipment ∧
      s'.db.recipe_ingredients = s.db.recipe_ingredients ∧
      s'.db.recipe_equipment = s.db.recipe_equipment ∧
      s'.db.recipe_steps = s.db.recipe_steps ∧
      s'.db.step_ingredients = s.db.step_ingredients ∧
      s'.db.nextId = s.db.nextId ∧
      s'.db.step_equipment = s.db.step_equipment ++ nj ∧
      (∀ j ∈ nj, j.step_id = sid) ∧
      ∃ tr, s'.trace = s.trace ++ tr ∧ ∀ e ∈ tr, e.isDelete = false := by
  by_cases he : l.isEmpty
  · refine ⟨s, [], ?_, h, rfl, rfl, rfl, rfl, rfl, rfl, rfl, rfl, by simp,
      by simp, [], by simp⟩
    simp [he]
  · obtain ⟨s', nj, heq, h', _, hrec', hing', heqp', hri', hre', hrs',
      hsi', hni', hse', hjid, _, _, tr', htr', htr'd⟩ :=
      insert_step_equipment_clean sid l s h
    refine ⟨s', nj, ?_, h', hrec', hing', heqp', hri', hre', hrs', hsi',
      hni', hse', hjid, tr', htr', htr'd⟩
    simp [he, heq]

theorem insert_recipe_steps_loop_clean (rid : Nat) (title : String)
    (auto : Bool) :
    ∀ (steps : List StepInput) (s : St), s.faults = [] →
    (∀ t ∈ steps, strTruthy t.instruction = true) →
    ∃ s' newSteps newJI newJE,
      insert_recipe_steps_loop rid title auto steps s = (Except.ok (), s') ∧
      s'.faults = [] ∧
      s'.db.recipes = s.db.recipes ∧
      s'.db.ingredients = s.db.ingredients ∧
      s'.db.equipment = s.db.equipment ∧
      s'.db.recipe_ingredients = s.db.recipe_ingredients ∧
      s'.db.recipe_equipment = s.db.recipe_equipment ∧
      s'.db.recipe_steps = s.db.recipe_steps ++ newSteps ∧
      newSteps.map stepContent = steps.map stepInputContent ∧
      (∀ r ∈ newSteps, r.recipe_id = rid ∧ s.db.nextId ≤ r.id) ∧
      s.db.nextId ≤ s'.db.nextId ∧
      s'.db.step_ingredients = s.db.step_ingredients ++ newJI ∧
      (∀ j ∈ newJI, s.db.nextId ≤ j.step_id) ∧
      s'.db.step_equipment = s.db.step_equipment ++ newJE ∧
      (∀ j ∈ newJE, s.db.nextId ≤ j.step_id) ∧
      ∃ tr, s'.trace = s.trace ++ tr ∧ ∀ e ∈ tr, e.isDelete = false := by
  intro steps
  induction steps with
  | nil =>
    intro s h _
    exact ⟨s, [], [], [], rfl, h, rfl, rfl, rfl, rfl, rfl, by simp, rfl,
      by simp, Nat.le_refl _, by simp, by simp, by simp, by simp, [],
      by simp, by simp⟩
  | cons t rest ih =>
    intro s h hl
    have ht : strTruthy t.instruction = true := hl t (by simp)
    have hunf : insert_recipe_steps_loop rid title auto (t :: rest) s =
        andThen (dbOp [DbEv.insRecipeSteps]
            (stepsInsert rid (pyOrNat t.step_number t.idField)
              (t.instruction.getD "") t.output t.dependencies) s)
          (fun sid s1 =>
            let s2 :=
              if !t.ingredients.isEmpty then
                insert_step_ingredients sid t.ingredients s1
              else s1
            let s3 :=
              if !t.equipment.isEmpty then
                insert_step_equipment sid t.equipment s2
              else s2
            let s4 :=
              if auto then
                { s3 with spawns := s3.spawns ++
                    [{ step_id := sid
                       step_number := pyOrNat t.step_number t.idField
                       step_instruction := t.instruction.getD ""
                       recipe_id := rid, recipe_title := title }] }
              else s3
            insert_recipe_steps_loop rid title auto rest s4) := by
      simp only [insert_recipe_steps_loop, ht, Bool.not_true,
        Bool.false_eq_true, if_false]
    rw [dbOp_clean _ _ _ h, andThen_ok] at hunf
    simp only [] at hunf
    set s1 : St :=
      { s with
          db := (stepsInsert rid (pyOrNat t.step_number t.idField)
            (t.instruction.getD "") t.output t.dependencies s.db).1
          opIdx := s.opIdx + 1
          trace := s.trace ++ [DbEv.insRecipeSteps] } with hs1
    have hsid : (stepsInsert rid (pyOrNat t.step_number t.idField)
        (t.instruction.getD "") t.output t.dependencies s.db).2 =
        s.db.nextId := rfl
    rw [hsid] at hunf
    have h1 : s1.faults = [] := h
    obtain ⟨sA, njA, hA, hAf, hArec, hAing, hAeqp, hAri, hAre, hArs, hAse,
      hAni, hAsi, hAjid, trA, hAtr, hAtrd⟩ :=
      step_ing_phase_clean s.db.nextId t.ingredients s1 h1
    rw [hA] at hunf
    obtain ⟨sB, njB, hB, hBf, hBrec, hBing, hBeqp, hBri, hBre, hBrs, hBsi,
      hBni, hBse, hBjid, trB, hBtr, hBtrd⟩ :=
      step_eq_phase_clean s.db.nextId t.equipment sA hAf
    rw [hB] at hunf
    set s4 : St :=
      if auto then
        { sB with spawns := sB.spawns ++
            [{ step_id := s.db.nextId
               step_number := pyOrNat t.step_number t.idField
               step_instruction := t.instruction.getD ""
               recipe_id := rid, recipe_title := title }] }
      else sB with hs4
    have h4db : s4.db = sB.db := by
      rw [hs4]; cases auto <;> simp
    have h4f : s4.faults = [] := by
      rw [hs4]; cases auto <;> simp [hBf]
    have h4tr : s4.trace = sB.trace := by
      rw [hs4]; cases auto <;> simp
    have hl' : ∀ u ∈ rest, strTruthy u.instruction = true := by
      intro u hu; exact hl u (by simp [hu])
    obtain ⟨s', newSteps', newJI', newJE', hloop, h'f, h'rec, h'ing, h'eqp,
      h'ri, h're, h'rs, h'content, h'rid, h'ni, h'si, h'jI, h'se, h'jE,
      tr', h'tr, h'trd⟩ := ih s4 h4f hl'
    have hrow : s1.db.recipe_steps = s.db.recipe_steps ++
        [{ id := s.db.nextId, recipe_id := rid
           step_number := pyOrNat t.step_number t.idField
           instruction := t.instruction.getD "", output := t.output
           dependencies := t.dependencies, image_url := none
           image_prompt := none, image_generated_at := none }] := rfl
    have hn1 : s1.db.nextId = s.db.nextId + 1 := rfl
    refine ⟨s',
      { id := s.db.nextId, recipe_id := rid
        step_number := pyOrNat t.step_number t.idField
        instruction := t.instruction.getD "", output := t.output
        dependencies := t.dependencies, image_url := none
        image_prompt := none, image_generated_at := none } :: newSteps',
      njA ++ newJI', njB ++ newJE',
      ?_, h'f, ?_, ?_, ?_, ?_, ?_, ?_, ?_, ?_, ?_, ?_, ?_, ?_, ?_, ?_⟩
    · rw [hunf]; exact hloop
    · rw [h'rec, h4db, hBrec, hArec]; rfl
    · rw [h'ing, h4db, hBing, hAing]; rfl
    · rw [h'eqp, h4db, hBeqp, hAeqp]; rfl
    · rw [h'ri, h4db, hBri, hAri]; rfl
    · rw [h're, h4db, hBre, hAre]; rfl
    · rw [h'rs, h4db, hBrs, hArs, hrow]; simp
    · simp only [List.map_cons, h'content, stepContent, stepInputContent]
    · intro r hr
      cases hr with
      | head => exact ⟨rfl, Nat.le_refl _⟩
      | tail _ hr =>
        obtain ⟨hr1, hr2⟩ := h'rid r hr
        refine ⟨hr1, ?_⟩
        rw [h4db, hBni, hAni, hn1] at hr2
        omega
    · have : s4.db.nextId = s.db.nextId + 1 := by
        rw [h4db, hBni, hAni, hn1]
      omega
    · rw [h'si, h4db, hBsi, hAsi]
      have : s1.db.step_ingredients = s.db.step_ingredients := rfl
      rw [this]
      simp
    · intro j hj
      simp only [List.mem_append] at hj
      cases hj with
      | inl hj => exact Nat.le_of_eq (hAjid j hj).symm
      | inr hj =>
        have := h'jI j hj
        rw [h4db, hBni, hAni, hn1] at this
        omega
    · rw [h'se, h4db, hBse, hAse]
      have : s1.db.step_equipment = s.db.step_equipment := rfl
      rw [this]
      simp
    · intro j hj
      simp only [List.mem_append] at hj
      cases hj with
      | inl hj => exact Nat.le_of_eq (hBjid j hj).symm
      | inr hj =>
        have := h'jE j hj
        rw [h4db, hBni, hAni, hn1] at this
        omega
    · refine ⟨[DbEv.insRecipeSteps] ++ trA ++ trB ++ tr', ?_, ?_⟩
      · rw [h'tr, h4tr, hBtr, hAtr]
        have : s1.trace = s.trace ++ [DbEv.insRecipeSteps] := rfl
        rw [this]
        simp
      · intro e he
        simp only [List.mem_append, List.mem_singleton] at he
        rcases he with ((he | he) | he) | he
        · simp [he, DbEv.isDelete]
        · exact hAtrd e he
        · exact hBtrd e he
        · exact h'trd e he

theorem filter_of_filter_not {α : Type} (p : α → Bool) (l : List α) :
    (l.filter (fun a => !p a)).filter p = [] := by
  induction l with
  | nil => rfl
  | cons a as ih =>
    by_cases hp : p a = true
    · simp [List.filter_cons, hp, ih]
    · simp only [Bool.not_eq_true] at hp
      simp [List.filter_cons, hp, ih]

theorem filter_keep_all {α : Type} (p : α → Bool) :
    ∀ (l : List α), (∀ a ∈ l, p a = true) → l.filter p = l := by
  intro l h
  induction l with
  | nil => rfl
  | cons a as ih =>
    rw [List.filter_cons, if_pos (h a (by simp))]
    rw [ih (fun x hx => h x (by simp [hx]))]

theorem ing_if_collapse (rid : Nat) (l : List IngredientInput) (s : St) :
    (if !l.isEmpty then insert_recipe_ingredients rid l s else s) =
      insert_recipe_ingredients rid l s := by
  cases l with
  | nil => simp [insert_recipe_ingredients, insert_recipe_ingredients_loop,
      caught]
  | cons a as => simp

theorem eq_if_collapse (rid : Nat) (l : List EquipmentInput) (s : St) :
    (if !l.isEmpty then insert_recipe_equipment rid l s else s) =
      insert_recipe_equipment rid l s := by
  cases l with
  | nil => simp [insert_recipe_equipment, insert_recipe_equipment_loop,
      caught]
  | cons a as => simp

theorem steps_if_collapse (rid : Nat) (l : List StepInput) (title : String)
    (auto : Bool) (s : St) :
    (if !l.isEmpty then insert_recipe_steps rid l title auto s else s) =
      insert_recipe_steps rid l title auto s := by
  cases l with
  | nil => simp [insert_recipe_steps, insert_recipe_steps_loop, caught]
  | cons a as => simp

/-- C1: saving a recipe whose title matches an existing recipe's title
case-insensitively re-uses the original recipe_id (no new recipe row), first
deletes all dependent rows for that id (step-joins, steps, recipe-ingredient
joins, recipe-equipment joins — all deletions precede all re-insertions in
the write trace), updates the recipe's scalar fields in place, and afterwards
exactly the newly submitted ingredients/equipment/steps are present for that
recipe_id, with no join row left referencing any of the old (deleted) steps.
Hypotheses: a fault-free run, serial ids well-formed (positive, step ids
below the id counter), the lookup finding `row`, and the submitted records
carrying truthy names/instructions. -/
theorem save_recipe_overwrite_exact (rd : RecipeData) (auto : Bool) (s : St)
    (row : RecipeRow)
    (hfaults : s.faults = [])
    (htitle : strTruthy rd.title = true)
    (hfound : selectRecipeByTitleIlike (rd.title.getD "") s.db = some row)
    (hnext : 1 ≤ s.db.nextId)
    (hidI : ∀ m ∈ s.db.ingredients, 1 ≤ m.id)
    (hidE : ∀ m ∈ s.db.equipment, 1 ≤ m.id)
    (hids : ∀ r ∈ s.db.recipe_steps, r.id < s.db.nextId)
    (hingn : ∀ i ∈ rd.ingredients, strTruthy i.name = true)
    (heqn : ∀ e ∈ rd.equipment, strTruthy e.name = true)
    (hstn : ∀ t ∈ rd.steps, strTruthy t.instruction = true) :
    (save_recipe_to_db rd auto s).1 = some row.id ∧
    (((save_recipe_to_db rd auto s).2.db.recipe_ingredients.filter
        (fun r => r.recipe_id == row.id)).map ingContent =
      rd.ingredients.map ingInputContent) ∧
    (((save_recipe_to_db rd auto s).2.db.recipe_equipment.filter
        (fun r => r.recipe_id == row.id)).map eqContent =
      rd.equipment.map eqInputContent) ∧
    (((save_recipe_to_db rd auto s).2.db.recipe_steps.filter
        (fun r => r.recipe_id == row.id)).map stepContent =
      rd.steps.map stepInputContent) ∧
    (∀ r ∈ (save_recipe_to_db rd auto s).2.db.recipes, r.id = row.id →
      r.title = rd.title ∧ r.description = rd.description ∧
      r.prep_time = pyOrStr rd.prep_time rd.prepTime ∧
      r.cook_time = pyOrStr rd.cook_time rd.cookTime ∧
      r.servings = rd.servings.getD 4) ∧
    (∀ j ∈ (save_recipe_to_db rd auto s).2.db.step_ingredients,
      ¬ j.step_id ∈ selectStepIdsByRecipe row.id s.db) ∧
    (∀ j ∈ (save_recipe_to_db rd auto s).2.db.step_equipment,
      ¬ j.step_id ∈ selectStepIdsByRecipe row.id s.db) ∧
    (∃ trD trR, (save_recipe_to_db rd auto s).2.trace =
      s.trace ++ trD ++ trR ∧
      (∀ e ∈ trD, e.isDelete = true) ∧ (∀ e ∈ trR, e.isDelete = false)) := by
  -- Phase 1: the title lookup.
  have h0 : ({ s with opIdx := s.opIdx + 1 } : St).faults = [] := hfaults
  -- Phase 2: deletion of the existing recipe's dependent rows.
  obtain ⟨s1, hdel, h1, hsp1, hrec1, hing1, heqp1, hni1, hrs1, hri1, hre1,
    hsi1, hse1, trD, htrD, htrDd⟩ :=
    delete_recipe_data_clean row.id { s with opIdx := s.opIdx + 1 } h0
  -- Phase 3: the in-place scalar update.
  set s2 : St :=
    { s1 with
        db := (recipesUpdate row.id (recipe_scalar_fields rd) s1.db).1
        opIdx := s1.opIdx + 1
        trace := s1.trace ++ [DbEv.updRecipes row.id] } with hs2
  have hupd : update_recipe row.id rd s1 = s2 :=
    update_recipe_clean row.id rd s1 h1
  have h2 : s2.faults = [] := h1
  have hn2 : 1 ≤ s2.db.nextId := by
    have : s2.db.nextId = s1.db.nextId := rfl
    rw [this, hni1]
    exact hnext
  have hm2 : ∀ m ∈ s2.db.ingredients, 1 ≤ m.id := by
    have : s2.db.ingredients = s1.db.ingredients := rfl
    rw [this, hing1]
    exact hidI
  -- Phase 4: ingredient insertion.
  obtain ⟨s3, rowsI, hloopI, h3, hsp3, hn3, hm3, hrec3, heqp3, hre3, hrs3,
    hsi3, hse3, hri3, hcontI, hridI, trI, htrI, htrId⟩ :=
    insert_recipe_ingredients_loop_clean row.id rd.ingredients s2 h2 hn2
      hm2 hingn
  have hing : insert_recipe_ingredients row.id rd.ingredients s2 = s3 := by
    unfold insert_recipe_ingredients
    rw [hloopI, caught_ok]
  have hm3E : ∀ m ∈ s3.db.equipment, 1 ≤ m.id := by
    rw [heqp3]
    have : s2.db.equipment = s1.db.equipment := rfl
    rw [this, heqp1]
    exact hidE
  -- Phase 5: equipment insertion.
  obtain ⟨s4, rowsE, hloopE, h4, hsp4, hn4, hm4, hrec4, hing4, hri4, hrs4,
    hsi4, hse4, hre4, hcontE, hridE, trE, htrE, htrEd⟩ :=
    insert_recipe_equipment_loop_clean row.id rd.equipment s3 h3
      (Nat.le_trans hn2 hn3) hm3E heqn
  have heqi : insert_recipe_equipment row.id rd.equipment s3 = s4 := by
    unfold insert_recipe_equipment
    rw [hloopE, caught_ok]
  -- Phase 6: step insertion.
  obtain ⟨s5, newSteps, newJI, newJE, hloopS, h5, hrec5, hing5, heqp5, hri5,
    hre5, hrs5, hcontS, hridS, hn5, hsi5, hjI5, hse5, hjE5, trS, htrS,
    htrSd⟩ :=
    insert_recipe_steps_loop_clean row.id (rd.title.getD "Unknown Recipe")
      auto rd.steps s4 h4 hstn
  have hstp : insert_recipe_steps row.id rd.steps
      (rd.title.getD "Unknown Recipe") auto s4 = s5 := by
    unfold insert_recipe_steps
    rw [hloopS, caught_ok]
  -- The whole call.
  have hmain : save_recipe_to_db rd auto s = (some row.id, s5) := by
    unfold save_recipe_to_db
    rw [get_existing_clean rd.title s hfaults htitle]
    simp only [hfound]
    rw [hdel, hupd, ing_if_collapse, hing, eq_if_collapse, heqi,
      steps_if_collapse, hstp]
  rw [hmain]
  -- Chained projections back to the initial database.
  have eri : s5.db.recipe_ingredients =
      (s.db.recipe_ingredients.filter (fun r => !(r.recipe_id == row.id)))
        ++ rowsI := by
    rw [hri5, hri4, hri3]
    have : s2.db.recipe_ingredients = s1.db.recipe_ingredients := rfl
    rw [this, hri1]
  have ere : s5.db.recipe_equipment =
      (s.db.recipe_equipment.filter (fun r => !(r.recipe_id == row.id)))
        ++ rowsE := by
    rw [hre5, hre4, hre3]
    have : s2.db.recipe_equipment = s1.db.recipe_equipment := rfl
    rw [this, hre1]
  have ers : s5.db.recipe_steps =
      (s.db.recipe_steps.filter (fun r => !(r.recipe_id == row.id)))
        ++ newSteps := by
    rw [hrs5, hrs4, hrs3]
    have : s2.db.recipe_steps = s1.db.recipe_steps := rfl
    rw [this, hrs1]
  have esi : s5.db.step_ingredients =
      (s.db.step_ingredients.filter (fun r =>
        !((selectStepIdsByRecipe row.id s.db).contains r.step_id)))
        ++ newJI := by
    rw [hsi5, hsi4, hsi3]
    have : s2.db.step_ingredients = s1.db.step_ingredients := rfl
    rw [this, hsi1]
  have ese : s5.db.step_equipment =
      (s.db.step_equipment.filter (fun r =>
        !((selectStepIdsByRecipe row.id s.db).contains r.step_id)))
        ++ newJE := by
    rw [hse5, hse4, hse3]
    have : s2.db.step_equipment = s1.db.step_equipment := rfl
    rw [this, hse1]
  have erec : s5.db.recipes =
      s.db.recipes.map (fun r =>
        if r.id == row.id then
          { r with title := rd.title, description := rd.description
                   prep_time := pyOrStr rd.prep_time rd.prepTime
                   cook_time := pyOrStr rd.cook_time rd.cookTime
                   servings := rd.servings.getD 4 }
        else r) := by
    rw [hrec5, hrec4, hrec3]
    have : s2.db.recipes = s1.db.recipes.map (fun r =>
        if r.id == row.id then
          { r with title := rd.title, description := rd.description
                   prep_time := pyOrStr rd.prep_time rd.prepTime
                   cook_time := pyOrStr rd.cook_time rd.cookTime
                   servings := rd.servings.getD 4 }
        else r) := rfl
    rw [this, hrec1]
  have hnext4 : s.db.nextId ≤ s4.db.nextId := by
    have e1 : s1.db.nextId = s.db.nextId := hni1
    have e2 : s2.db.nextId = s1.db.nextId := rfl
    omega
  refine ⟨rfl, ?_, ?_, ?_, ?_, ?_, ?_, ?_⟩
  · rw [eri, List.filter_append, filter_of_filter_not,
      filter_keep_all _ rowsI (fun r hr => by
        simp [hridI r hr]), List.nil_append, hcontI]
  · rw [ere, List.filter_append, filter_of_filter_not,
      filter_keep_all _ rowsE (fun r hr => by
        simp [hridE r hr]), List.nil_append, hcontE]
  · rw [ers, List.filter_append, filter_of_filter_not,
      filter_keep_all _ newSteps (fun r hr => by
        simp [(hridS r hr).1]), List.nil_append, hcontS]
  · intro r hr hrid
    rw [erec] at hr
    obtain ⟨r0, hr0, hr0e⟩ := List.mem_map.mp hr
    by_cases hcase : r0.id = row.id
    · rw [if_pos (by simpa using hcase)] at hr0e
      rw [← hr0e]
      exact ⟨rfl, rfl, rfl, rfl, rfl⟩
    · rw [if_neg (by simpa using hcase)] at hr0e
      rw [← hr0e] at hrid
      exact absurd hrid hcase
  · intro j hj
    rw [esi] at hj
    rcases List.mem_append.mp hj with hj | hj
    · have := (List.mem_filter.mp hj).2
      simp only [Bool.not_eq_true'] at this
      simp at this
      intro hmem
      exact this hmem
    · intro hmem
      have hge := hjI5 j hj
      have hlt : j.step_id < s.db.nextId := by
        obtain ⟨r0, hr0, hr0e⟩ := List.mem_map.mp hmem
        have := hids r0 (List.mem_filter.mp hr0).1
        omega
      omega
  · intro j hj
    rw [ese] at hj
    rcases List.mem_append.mp hj with hj | hj
    · have := (List.mem_filter.mp hj).2
      simp only [Bool.not_eq_true'] at this
      simp at this
      intro hmem
      exact this hmem
    · intro hmem
      have hge := hjE5 j hj
      have hlt : j.step_id < s.db.nextId := by
        obtain ⟨r0, hr0, hr0e⟩ := List.mem_map.mp hmem
        have := hids r0 (List.mem_filter.mp hr0).1
        omega
      omega
  · refine ⟨trD, [DbEv.updRecipes row.id] ++ trI ++ trE ++ trS, ?_, htrDd,
      ?_⟩
    · rw [htrS, htrE, htrI]
      have : s2.trace = s1.trace ++ [DbEv.updRecipes row.id] := rfl
      rw [this, htrD]
      simp
    · intro e he
      simp only [List.mem_append, List.mem_singleton] at he
      rcases he with ((he | he) | he) | he
      · simp [he, DbEv.isDelete]
      · exact htrId e he
      · exact htrEd e he
      · exact htrSd e he

/-! ## Image-pipeline helper lemmas -/

/-- The arguments of one dispatched background image task. -/
structure TaskArgs where
  env : ImgEnv
  db : DB
  storage : Storage
  step_id : Nat
  step_number : Nat
  step_instruction : String
  recipe_id : Nat
  recipe_title : String
  check_existing : Bool

/-- Run one background task to completion. -/
def runTask (a : TaskArgs) : TaskOutput :=
  generate_step_image_async_task a.env a.db a.storage a.step_id
    a.step_number a.step_instruction a.recipe_id a.recipe_title
    a.check_existing

/-- Every path through the task body tags its result dictionary with the
task's step id. -/
theorem runTask_step_id (a : TaskArgs) :
    (runTask a).result.step_id = some a.step_id := by
  unfold runTask generate_step_image_async_task
  cases hres : (generate_and_store_step_image a.env a.db a.storage a.step_id
      a.step_instruction a.recipe_title a.recipe_id a.step_number
      a.check_existing).result with
  | none => simp [hres]
  | some d => simp [hres]

/-- The number of image-generation calls in a trace. -/
def countGen (tr : List ImgEvent) : Nat :=
  (tr.filter ImgEvent.isGenCall).length

/-- When the store phase returns a result, the target filename was uploaded
and is present in the resulting storage. -/
theorem store_phase_result_some (env : ImgEnv) (st : Storage)
    (fn p : String) (ct : List ImgEvent) (go : List ImgEvent × Option String)
    (d : ImageData) (h : (store_phase env st fn p ct go).result = some d) :
    object_exists (store_phase env st fn p ct go).storage fn = true := by
  unfold store_phase at h ⊢
  split at h
  · simp at h
  · split at h
    · simp at h
    · unfold upload_file_to_oci at h ⊢
      by_cases hu : env.uploadOk = true
      · rw [if_pos hu] at h ⊢
        simp [object_exists]
      · rw [if_neg hu] at h ⊢
        simp at h

/-- A successful, non-skipped generation leaves the deterministic filename
in object storage. -/
theorem gen_store_filename (env : ImgEnv) (db : DB) (st0 : Storage)
    (sid : Nat) (instr title : String) (rid sn : Nat) (ce : Bool)
    (d : ImageData)
    (h1 : (generate_and_store_step_image env db st0 sid instr title rid sn
      ce).result = some d)
    (h2 : d.skipped = none) :
    object_exists
      (generate_and_store_step_image env db st0 sid instr title rid sn
        ce).storage (stepImageFilename rid sn) = true := by
  unfold generate_and_store_step_image at h1 ⊢
  by_cases hc : (ce && object_exists st0 (stepImageFilename rid sn)) = true
  · rw [if_pos hc] at h1 ⊢
    simp only [Option.some.injEq] at h1
    rw [← h1] at h2
    simp at h2
  · rw [if_neg hc] at h1 ⊢
    exact store_phase_result_some _ _ _ _ _ _ _ h1

/-- C5: the image task's target filename is computed from recipe id and step
number alone (`stepImageFilename`, no timestamp), and after a first call has
generated and stored the image, a second call for the same
(recipe_id, step_number) with `check_existing = true` — whatever its
environment, database, step id, instruction or title — short-circuits: it
returns the existing URL tagged `skipped := true`, performs only the
existence check (no generation call, no upload), and leaves storage
unchanged. -/
theorem second_generation_skips (env1 env2 : ImgEnv) (db1 db2 : DB)
    (st0 : Storage) (sid1 sid2 rid sn : Nat)
    (instr1 instr2 title1 title2 : String) (ce1 : Bool) (d : ImageData)
    (h1 : (generate_and_store_step_image env1 db1 st0 sid1 instr1 title1
      rid sn ce1).result = some d)
    (h2 : d.skipped = none) :
    (generate_and_store_step_image env2 db2
        (generate_and_store_step_image env1 db1 st0 sid1 instr1 title1 rid
          sn ce1).storage sid2 instr2 title2 rid sn true).result =
      some { image_url := get_object_url (stepImageFilename rid sn)
             prompt := "existing", generated_at := env2.now
             skipped := some true } ∧
    (generate_and_store_step_image env2 db2
        (generate_and_store_step_image env1 db1 st0 sid1 instr1 title1 rid
          sn ce1).storage sid2 instr2 title2 rid sn true).trace =
      [ImgEvent.existsCheck (stepImageFilename rid sn)] ∧
    (generate_and_store_step_image env2 db2
        (generate_and_store_step_image env1 db1 st0 sid1 instr1 title1 rid
          sn ce1).storage sid2 instr2 title2 rid sn true).storage =
      (generate_and_store_step_image env1 db1 st0 sid1 instr1 title1 rid
        sn ce1).storage := by
  have hex := gen_store_filename env1 db1 st0 sid1 instr1 title1 rid sn ce1
    d h1 h2
  have hcond : (true && object_exists
      (generate_and_store_step_image env1 db1 st0 sid1 instr1 title1 rid sn
        ce1).storage (stepImageFilename rid sn)) = true := by
    simp [hex]
  constructor
  · conv_lhs => rw [generate_and_store_step_image]
    rw [if_pos hcond]
  constructor
  · conv_lhs => rw [generate_and_store_step_image]
    rw [if_pos hcond]
  · conv_lhs => rw [generate_and_store_step_image]
    rw [if_pos hcond]

/-- C10: when the existence check finds the target image already in object
storage, the task does not merely return the skipped result — it still calls
the step-update callback, so afterwards the step row's `image_url` holds the
existing URL and its `image_prompt` is overwritten with the literal string
"existing". -/
theorem existing_image_overwrites_step_row (env : ImgEnv) (db : DB)
    (storage : Storage) (sid sn : Nat) (instr : String) (rid : Nat)
    (title : String)
    (hex : object_exists storage (stepImageFilename rid sn) = true) :
    (generate_step_image_async_task env db storage sid sn instr rid title
      true).result.success = true ∧
    (generate_step_image_async_task env db storage sid sn instr rid title
      true).result.skipped = some true ∧
    (generate_step_image_async_task env db storage sid sn instr rid title
      true).result.image_url =
      some (get_object_url (stepImageFilename rid sn)) ∧
    (generate_step_image_async_task env db storage sid sn instr rid title
      true).result.prompt = some "existing" ∧
    ImgEvent.dbUpdateStepImage sid
        (get_object_url (stepImageFilename rid sn)) "existing" ∈
      (generate_step_image_async_task env db storage sid sn instr rid title
        true).trace ∧
    (∀ r ∈ (generate_step_image_async_task env db storage sid sn instr rid
        title true).db.recipe_steps, r.id = sid →
      r.image_url = some (get_object_url (stepImageFilename rid sn)) ∧
      r.image_prompt = some "existing") := by
  have hgen : generate_and_store_step_image env db storage sid instr title
      rid sn true =
      { result := some
          { image_url := get_object_url (stepImageFilename rid sn)
            prompt := "existing", generated_at := env.now
            skipped := some true }
        storage := storage
        trace := [ImgEvent.existsCheck (stepImageFilename rid sn)] } := by
    rw [generate_and_store_step_image]
    rw [if_pos (by simp [hex])]
  have htask : generate_step_image_async_task env db storage sid sn instr
      rid title true =
      { result :=
          { success := true, step_id := some sid
            image_url := some (get_object_url (stepImageFilename rid sn))
            prompt := some "existing", generated_at := some env.now
            skipped := some true }
        db := update_recipe_step_image db sid
          (get_object_url (stepImageFilename rid sn)) "existing"
        storage := storage
        trace := [ImgEvent.existsCheck (stepImageFilename rid sn),
          ImgEvent.dbUpdateStepImage sid
            (get_object_url (stepImageFilename rid sn)) "existing"] } := by
    unfold generate_step_image_async_task
    rw [hgen]
    rfl
  rw [htask]
  refine ⟨rfl, rfl, rfl, rfl, by simp, ?_⟩
  intro r hr hrid
  simp only [update_recipe_step_image, List.mem_map] at hr
  obtain ⟨r0, _, hr0e⟩ := hr
  by_cases hcase : r0.id = sid
  · rw [if_pos (by simpa using hcase)] at hr0e
    rw [← hr0e]
    exact ⟨rfl, rfl⟩
  · rw [if_neg (by simpa using hcase)] at hr0e
    rw [← hr0e] at hrid
    exact absurd hrid hcase

theorem sd_retry_all_fail (env : ImgEnv) (p : String)
    (hsd : ∀ k, env.sdResult k = none) :
    ∀ (n a : Nat), sd_retry_loop env p a n =
      (List.replicate n (ImgEvent.sdCall p), none) := by
  intro n
  induction n with
  | zero => intro a; rfl
  | succ m ih =>
    intro a
    simp only [sd_retry_loop, hsd a, ih (a + 1), List.replicate_succ]

theorem countGen_check_trace_append (ce : Bool) (fn : String)
    (l : List ImgEvent) :
    countGen (check_trace ce fn ++ l) = countGen l := by
  cases ce <;> simp [check_trace, countGen, ImgEvent.isGenCall]

theorem countGen_replicate_sd (n : Nat) (p : String) :
    countGen (List.replicate n (ImgEvent.sdCall p)) = n := by
  induction n with
  | zero => rfl
  | succ m ih =>
    simp only [List.replicate_succ, countGen, List.filter_cons]
    simp only [countGen] at ih
    simp [ImgEvent.isGenCall, ih]

/-- C9 (amended): with the `stable_diffusion` backend, a failing generation
is retried until `max_retries + 1 = 3` attempts have been made, and only then
does the task report failure; with any other backend (the DALL-E fallback) a
single attempt is made and a failure is reported without any retry. -/
theorem generation_retry_depends_on_backend (env : ImgEnv) (db : DB)
    (storage : Storage) (sid : Nat) (instr title : String) (rid sn : Nat)
    (ce : Bool)
    (hns : (ce && object_exists storage (stepImageFilename rid sn)) =
      false) :
    (env.backend = "stable_diffusion" → (∀ k, env.sdResult k = none) →
      countGen (generate_and_store_step_image env db storage sid instr
        title rid sn ce).trace = 3 ∧
      (generate_and_store_step_image env db storage sid instr title rid sn
        ce).result = none) ∧
    (env.backend ≠ "stable_diffusion" → env.dalleResult = none →
      countGen (generate_and_store_step_image env db storage sid instr
        title rid sn ce).trace = 1 ∧
      (generate_and_store_step_image env db storage sid instr title rid sn
        ce).result = none) := by
  have hgen : generate_and_store_step_image env db storage sid instr title
      rid sn ce =
      store_phase env storage (stepImageFilename rid sn)
        (resolved_prompt db sid instr title rid)
        (check_trace ce (stepImageFilename rid sn))
        (generation_phase env
          (resolved_prompt db sid instr title rid)) := by
    unfold generate_and_store_step_image
    rw [if_neg (by simp [hns])]
  constructor
  · intro hb hsd
    have hphase : generation_phase env
        (resolved_prompt db sid instr title rid) =
        (List.replicate 3 (ImgEvent.sdCall
          (resolved_prompt db sid instr title rid)), none) := by
      unfold generation_phase
      rw [if_pos (by simp [hb])]
      exact sd_retry_all_fail env _ hsd 3 0
    rw [hgen, hphase]
    unfold store_phase
    simp only []
    exact ⟨by rw [countGen_check_trace_append, countGen_replicate_sd], trivial⟩
  · intro hb hd
    have hphase : generation_phase env
        (resolved_prompt db sid instr title rid) =
        ([ImgEvent.dalleCall (resolved_prompt db sid instr title rid)],
          none) := by
      unfold generation_phase
      rw [if_neg (by simpa using hb), hd]
    rw [hgen, hphase]
    unfold store_phase
    simp only []
    refine ⟨?_, trivial⟩
    rw [countGen_check_trace_append]
    rfl

/-- A concrete environment configured for the DALL-E fallback backend whose
single generation attempt fails. -/
def c9env : ImgEnv :=
  { backend := "dalle", sdResult := fun _ => none, dalleResult := none
    download := fun _ => some "bytes", uploadOk := true, now := "t" }

/-- C9 counterexample: the claim asserts a fixed small number of retries
regardless of the configured backend, but with the DALL-E backend a failing
generation is attempted exactly once — one generation call in the trace —
before the task reports failure. -/
theorem c9_counterexample_no_retry_on_dalle :
    countGen (generate_and_store_step_image c9env DB.empty
      { objects := [] } 7 "mix" "R" 1 2 false).trace = 1 ∧
    (generate_and_store_step_image c9env DB.empty { objects := [] } 7 "mix"
      "R" 1 2 false).result = none := by
  constructor
  · rfl
  · rfl

/-- C9 witness: the amended theorem applied at a concrete input for each
backend, with every hypothesis discharged by evaluation. -/
theorem generation_retry_depends_on_backend_witness :
    countGen (generate_and_store_step_image
      { backend := "stable_diffusion", sdResult := fun _ => none
        dalleResult := none, download := fun _ => some "b"
        uploadOk := true, now := "t" } DB.empty { objects := [] } 7 "mix"
      "R" 1 2 false).trace = 3 ∧
    countGen (generate_and_store_step_image c9env DB.empty { objects := [] }
      7 "mix" "R" 1 2 false).trace = 1 :=
  ⟨((generation_retry_depends_on_backend
      { backend := "stable_diffusion", sdResult := fun _ => none
        dalleResult := none, download := fun _ => some "b"
        uploadOk := true, now := "t" } DB.empty { objects := [] } 7 "mix"
      "R" 1 2 false (by rfl)).1 rfl (fun _ => rfl)).1,
   ((generation_retry_depends_on_backend c9env DB.empty { objects := [] } 7
      "mix" "R" 1 2 false (by rfl)).2 (by decide) rfl).1⟩

/-- C7 (amended): the prompt is independent of the `dependency_outputs`
argument (the source accepts it and the task fetches and passes the
dependency steps' outputs, but the prompt never includes them); when the
step has no truthy output and is not a serving step, the prompt is built
from the lowercased instruction plus the resolved item list; when the step
has a truthy output, the prompt's subject is the (container-rewritten)
lowercased output alone. -/
theorem prompt_ignores_dependency_outputs (i t : String)
    (ing eqp : List String) (o : Option String) (d : List String) :
    generate_step_image_prompt i t ing eqp o d =
      generate_step_image_prompt i t ing eqp o [] ∧
    (strTruthy o = false → looks_like_serving (pyLower i) = false →
      generate_step_image_prompt i t ing eqp o d =
        ("simple flat illustration, overhead view, ONLY " ++
          (pyLower i ++ ", " ++ items_list_of ing eqp) ++
          ", no extra objects, plain tan background, vector style").take
          180) ∧
    (strTruthy o = true →
      generate_step_image_prompt i t ing eqp o d =
        ("simple flat illustration, overhead view, ONLY " ++
          transform_subject (pyLower (o.getD "")) ++
          ", no extra objects, plain tan background, vector style").take
          180) := by
  refine ⟨rfl, ?_, ?_⟩
  · intro ho hs
    unfold generate_step_image_prompt
    rw [ho]
    simp only [Bool.false_eq_true, if_false, hs]
  · intro ho
    unfold generate_step_image_prompt
    rw [ho]
    simp only [if_true]

/-- C7 witness: the amended theorem at a concrete input, with the
hypotheses of its conditional parts discharged by evaluation. -/
theorem prompt_ignores_dependency_outputs_witness :
    generate_step_image_prompt "Mix flour" "Cake" ["flour"] [] none
      ["beaten eggs"] =
      generate_step_image_prompt "Mix flour" "Cake" ["flour"] [] none [] ∧
    generate_step_image_prompt "Mix flour" "Cake" ["flour"] [] none
      ["beaten eggs"] =
      ("simple flat illustration, overhead view, ONLY " ++
        (pyLower "Mix flour" ++ ", " ++ items_list_of ["flour"] []) ++
        ", no extra objects, plain tan background, vector style").take
        180 :=
  ⟨(prompt_ignores_dependency_outputs "Mix flour" "Cake" ["flour"] [] none
      ["beaten eggs"]).1,
   (prompt_ignores_dependency_outputs "Mix flour" "Cake" ["flour"] [] none
      ["beaten eggs"]).2.1 rfl (by decide)⟩

/-- A database holding a two-step recipe whose second step depends on the
first; the first step has the output "beaten egg mixture". -/
def c7db : DB :=
  { recipes := [{ id := 3, title := some "Omelette", description := none
                  prep_time := none, cook_time := none, servings := 4 }]
    ingredients := [], equipment := [], recipe_ingredients := []
    recipe_equipment := []
    recipe_steps :=
      [{ id := 1, recipe_id := 1, step_number := some 1
         instruction := "beat the eggs", output := some "beaten egg mixture"
         dependencies := [], image_url := none, image_prompt := none
         image_generated_at := none },
       { id := 2, recipe_id := 1, step_number := some 2
         instruction := "fry the mixture", output := none
         dependencies := [1], image_url := none, image_prompt := none
         image_generated_at := none }]
    step_ingredients := [], step_equipment := [], nextId := 5 }

/-- The environment of the C7 counterexample: Stable Diffusion succeeds at
the first attempt, download and upload succeed. -/
def c7env : ImgEnv :=
  { backend := "stable_diffusion", sdResult := fun _ => some "u"
    dalleResult := none, download := fun _ => some "bytes"
    uploadOk := true, now := "t" }

set_option maxRecDepth 4000 in
/-- C7 counterexample: a step task that reaches generation, whose dependency
step's output ("beaten egg mixture") exists and is fetched, invokes the
generation collaborator with a prompt that does not contain that dependency
output — contradicting the claim that dependency steps' output fields are
included in the prompt. -/
theorem c7_counterexample_dependency_output_not_in_prompt :
    (generate_and_store_step_image c7env c7db { objects := [] } 2
      "Fry the mixture" "Omelette" 1 2 false).trace =
      [ImgEvent.sdCall ("simple flat illustration, overhead view, ONLY " ++
        "fry the mixture, cooking items" ++
        ", no extra objects, plain tan background, vector style"),
       ImgEvent.uploadCall "recipe_steps/recipe_1_step_2.png"] ∧
    strContains ("simple flat illustration, overhead view, ONLY " ++
      "fry the mixture, cooking items" ++
      ", no extra objects, plain tan background, vector style")
      "beaten egg mixture" = false ∧
    (c7db.recipe_steps.find? (fun q =>
        q.recipe_id == 1 && q.step_number == some 1)).map
      (fun q => q.output) = some (some "beaten egg mixture") := by
  refine ⟨by decide, by decide, by decide⟩

/-- C6: waiting on N dispatched task handles, none of which times out,
returns exactly N result dictionaries, and the k-th result carries the
step_id of the k-th task. -/
theorem wait_for_all_images_complete (ts : List TaskArgs) :
    (wait_for_all_images (ts.map (fun a =>
      Except.ok (runTask a).result))).length = ts.length ∧
    ∀ (k : Nat)
      (h1 : k < (wait_for_all_images (ts.map (fun a =>
        Except.ok (runTask a).result))).length)
      (h2 : k < ts.length),
      ((wait_for_all_images (ts.map (fun a =>
        Except.ok (runTask a).result))).get ⟨k, h1⟩).step_id =
        some ((ts.get ⟨k, h2⟩).step_id) := by
  have hw : wait_for_all_images (ts.map (fun a =>
      Except.ok (runTask a).result)) =
      ts.map (fun a => (runTask a).result) := by
    unfold wait_for_all_images
    rw [List.map_map]
    rfl
  constructor
  · rw [hw, List.length_map]
  · intro k h1 h2
    simp only [List.get_eq_getElem, hw, List.getElem_map]
    exact runTask_step_id _

/-- A concrete task for the C6 witness: empty database, no stored image,
Stable Diffusion configured but failing, step_id 9. -/
def c6task : TaskArgs :=
  { env := { backend := "stable_diffusion", sdResult := fun _ => none
             dalleResult := none, download := fun _ => none
             uploadOk := false, now := "t" }
    db := DB.empty, storage := { objects := [] }, step_id := 9
    step_number := 1, step_instruction := "mix", recipe_id := 1
    recipe_title := "R", check_existing := false }

/-- C6 witness: the theorem applied to a concrete one-task list. -/
theorem wait_for_all_images_complete_witness :
    (wait_for_all_images ([c6task].map (fun a =>
      Except.ok (runTask a).result))).length = 1 ∧
    ((wait_for_all_images ([c6task].map (fun a =>
      Except.ok (runTask a).result))).get ⟨0, by decide⟩).step_id =
      some 9 := by
  have h := wait_for_all_images_complete [c6task]
  exact ⟨h.1, h.2 0 (by decide) (by decide)⟩

/-- The environment of the C8 counterexample: generation fails on every
attempt, so the task's `generate_and_store_step_image` returns `None`. -/
def c8env : ImgEnv :=
  { backend := "stable_diffusion", sdResult := fun _ => none
    dalleResult := none, download := fun _ => none, uploadOk := false
    now := "t" }

/-- C8 counterexample: a task whose image generation fails (returns `None`)
is a failed task, yet its entry from `wait_for_all_images` is
`\x7bsuccess := false, step_id := 7\x7d` with NO `error` field — contradicting
the claim that every failed task's entry contains an error field. -/
theorem c8_counterexample_failed_task_without_error_field :
    wait_for_all_images [Except.ok (generate_step_image_async_task c8env
      DB.empty { objects := [] } 7 1 "mix" 1 "R" false).result] =
      [{ success := false, step_id := some 7, error := none
         image_url := none, prompt := none, generated_at := none
         skipped := none }] := by
  decide

/-- C8 (amended): `wait_for_all_images` never raises and returns one entry
per handle; a handle whose wait raises (timeout/cancellation) yields
`\x7bsuccess := false, error\x7d` (with the error text, without a step_id), while a
completed task's dictionary is passed through unchanged — so a task that
failed by returning `None` contributes `success := false` with a `step_id`
but no `error` field. -/
theorem wait_entry_per_future (futures : List (Except String ResultDict)) :
    (wait_for_all_images futures).length = futures.length ∧
    ∀ (k : Nat) (h1 : k < (wait_for_all_images futures).length)
      (h2 : k < futures.length),
      (wait_for_all_images futures).get ⟨k, h1⟩ =
        (match futures.get ⟨k, h2⟩ with
         | Except.ok r => r
         | Except.error e => { success := false, error := some e }) := by
  constructor
  · unfold wait_for_all_images
    rw [List.length_map]
  · intro k h1 h2
    unfold wait_for_all_images
    simp only [List.get_eq_getElem, List.getElem_map]

/-- C8 amended witness: a timed-out wait at a concrete input yields a
failure entry carrying the error text. -/
theorem wait_entry_per_future_witness :
    (wait_for_all_images [Except.error "timeout"]).length = 1 ∧
    (wait_for_all_images [Except.error "timeout"]).get ⟨0, by decide⟩ =
      { success := false, error := some "timeout" } := by
  have h := wait_entry_per_future [Except.error "timeout"]
  exact ⟨h.1, h.2 0 (by decide) (by decide)⟩

/-- C2: calling `SupabaseManager.save_recipe` with a recipe record that has
no `title` key raises the `ValueError` synchronously before any database
operation: no write is issued, the database is unchanged, and the method's
own exception handler converts the raise into a `None` return. -/
theorem save_recipe_missing_title_no_writes (data : MgrData) (db : DB)
    (h : data.title = none) :
    (SupabaseManager_save_recipe true data db).raisedValueError = true ∧
    (SupabaseManager_save_recipe true data db).writes = [] ∧
    (SupabaseManager_save_recipe true data db).db = db ∧
    (SupabaseManager_save_recipe true data db).value = none := by
  unfold SupabaseManager_save_recipe
  rw [h]
  exact ⟨rfl, rfl, rfl, rfl⟩

/-- The outcome of saving a titleless record on the empty database. -/
def c2out : MgrOut :=
  SupabaseManager_save_recipe true { title := none } DB.empty

/-- C2 witness: the theorem at a concrete titleless record. -/
theorem save_recipe_missing_title_no_writes_witness :
    c2out.raisedValueError = true ∧ c2out.writes = [] ∧
    c2out.db = DB.empty := by
  have h := save_recipe_missing_title_no_writes { title := none } DB.empty
    rfl
  exact ⟨h.1, h.2.1, h.2.2.1⟩

/-- C3 (amended): exceptions during the ingredient, equipment and step
sub-steps are caught inside those helpers and swallowed — they never make
the call return `None`.  With a truthy title, `save_recipe_to_db` returns
`None` exactly when no existing recipe is found (including when the lookup
itself raises) AND the initial recipe insert raises; in every other case —
in particular whenever any later sub-step raises — the recipe id is still
returned, and partial writes are not rolled back. -/
theorem save_recipe_none_iff_insert_fails (rd : RecipeData) (auto : Bool)
    (db : DB) (i : Nat) (faults : List Nat) (tr0 : List DbEv)
    (sp0 : List SpawnArgs)
    (htitle : strTruthy rd.title = true) (hn : 1 ≤ db.nextId) :
    (save_recipe_to_db rd auto
      { db := db, opIdx := i, faults := faults, trace := tr0
        spawns := sp0 }).1 = none ↔
      ((if faults.contains i then none
        else selectRecipeByTitleIlike (rd.title.getD "") db) = none ∧
       faults.contains (i + 1) = true) := by
  have hge : get_existing_recipe_by_title rd.title
      { db := db, opIdx := i, faults := faults, trace := tr0
        spawns := sp0 } =
      ((if faults.contains i then none
        else selectRecipeByTitleIlike (rd.title.getD "") db),
       { db := db, opIdx := i + 1, faults := faults, trace := tr0
         spawns := sp0 }) := by
    unfold get_existing_recipe_by_title
    rw [htitle]
    simp only [Bool.not_true, Bool.false_eq_true, if_false]
    unfold dbRead dbOp caught
    by_cases hm : i ∈ faults
    · simp [hm]
    · simp [hm]
  unfold save_recipe_to_db
  rw [hge]
  simp only []
  by_cases hc : faults.contains i = true
  · rw [if_pos hc]
    unfold insert_recipe andThen dbOp caught
    simp only []
    by_cases hc2 : (i + 1) ∈ faults
    · simp [hc, hc2, natTruthy]
    · have hins : (recipesInsert (recipe_scalar_fields rd) db).2 =
          db.nextId := rfl
      have hnt : natTruthy (some db.nextId) = true := by
        simp only [natTruthy, bne_iff_ne, ne_eq, decide_eq_true_eq]
        omega
      simp [hc, hc2, hins, hnt]
  · rw [if_neg hc]
    cases hfind : selectRecipeByTitleIlike (rd.title.getD "") db with
    | some row => simp [hc, hfind]
    | none =>
      unfold insert_recipe andThen dbOp caught
      simp only []
      by_cases hc2 : (i + 1) ∈ faults
      · simp [hc, hc2, hfind, natTruthy]
      · have hins : (recipesInsert (recipe_scalar_fields rd) db).2 =
            db.nextId := rfl
        have hnt : natTruthy (some db.nextId) = true := by
          simp only [natTruthy, bne_iff_ne, ne_eq, decide_eq_true_eq]
          omega
        simp [hc, hc2, hfind, hins, hnt]

/-- The C3 counterexample recipe: a titled recipe with one named
ingredient. -/
def c3rd : RecipeData :=
  { title := some "A", description := none, prep_time := none
    prepTime := none, cook_time := none, cookTime := none, servings := none
    ingredients := [{ name := some "x", quantity := "1", unit := "g" }]
    equipment := [], steps := [] }

/-- The C3 counterexample state: empty database with a fault injected at
operation 2 — the master-ingredient lookup inside the ingredient
insertion sub-step. -/
def c3s : St :=
  { db := DB.empty, opIdx := 0, faults := [2], trace := [], spawns := [] }

/-- C3 counterexample: an exception raised during the ingredient-insertion
sub-step is swallowed — the whole call still returns the recipe id (not
`None`), and the earlier recipe-row write is left in place.  The fault
changes what the ingredient sub-step writes (no master row, against one on
a fault-free run), proving the exception occurred inside that sub-step. -/
theorem c3_counterexample_substep_exception_still_returns_id :
    (save_recipe_to_db c3rd false c3s).1 = some 1 ∧
    (save_recipe_to_db c3rd false c3s).2.db.ingredients = [] ∧
    (save_recipe_to_db c3rd false
      { c3s with faults := [] }).2.db.ingredients =
      [{ id := 2, name := "x" }] ∧
    (save_recipe_to_db c3rd false c3s).2.db.recipes =
      (save_recipe_to_db c3rd false { c3s with faults := [] }).2.db.recipes
      := by
  refine ⟨by decide, by decide, by decide, by decide⟩

/-- C3 amended witness: the characterization applied at a concrete input
where the recipe insert itself raises, so the call returns `None`. -/
theorem save_recipe_none_iff_insert_fails_witness :
    (save_recipe_to_db c3rd false
      { db := DB.empty, opIdx := 0, faults := [1], trace := []
        spawns := [] }).1 = none := by
  have h := save_recipe_none_iff_insert_fails c3rd false DB.empty 0 [1] []
    [] rfl (by decide)
  exact h.mpr ⟨by decide, by decide⟩

/-- C4: each of a step's ingredient/equipment name references is resolved by
case-insensitive name match against the `recipe_ingredients` /
`recipe_equipment` join rows of the step's own recipe (the produced rows are
`resolve_step_ing` / `resolve_step_eq`, which read only those per-recipe join
tables — never the global master lookup tables), the inserted step-join row
carries the per-recipe join row's id, a reference whose name matches nothing
for that recipe produces zero step-join rows, and both helpers return
normally (total `St → St` functions, no error surfaces to the caller). -/
theorem step_references_resolved_per_recipe (sid rid : Nat)
    (ings : List IngredientInput) (eqs : List EquipmentInput) (s : St)
    (h : s.faults = []) (hsel : selectStepRecipeId sid s.db = some rid) :
    (∃ s1, insert_step_ingredients sid ings s = s1 ∧
      s1.db.step_ingredients = s.db.step_ingredients ++
        resolve_step_ing s.db.recipe_ingredients rid sid ings ∧
      s1.db.recipe_ingredients = s.db.recipe_ingredients ∧
      s1.db.step_equipment = s.db.step_equipment ∧
      s1.db.ingredients = s.db.ingredients) ∧
    (∃ s2, insert_step_equipment sid eqs s = s2 ∧
      s2.db.step_equipment = s.db.step_equipment ++
        resolve_step_eq s.db.recipe_equipment rid sid eqs ∧
      s2.db.recipe_equipment = s.db.recipe_equipment ∧
      s2.db.step_ingredients = s.db.step_ingredients ∧
      s2.db.equipment = s.db.equipment) ∧
    (∀ i : IngredientInput, strTruthy i.name = true →
      s.db.recipe_ingredients.find? (fun r =>
        r.recipe_id == rid && ilikeEq r.name (i.name.getD "")) = none →
      resolve_step_ing s.db.recipe_ingredients rid sid [i] = []) ∧
    (∀ e : EquipmentInput, strTruthy e.name = true →
      s.db.recipe_equipment.find? (fun r =>
        r.recipe_id == rid && ilikeEq r.name (e.name.getD "")) = none →
      resolve_step_eq s.db.recipe_equipment rid sid [e] = []) := by
  refine ⟨?_, ?_, ?_, ?_⟩
  · obtain ⟨s1, nj, heq, _, _, _, hing1, _, hri1, _, _, hse1, _, hsi1, _,
      hres, _, _⟩ := insert_step_ingredients_clean sid ings s h
    refine ⟨s1, heq, ?_, hri1, hse1, hing1⟩
    rw [hsi1, hres rid hsel]
  · obtain ⟨s2, nj, heq, _, _, _, _, heqp2, hri2, hre2, _, hsi2, _, hse2,
      _, hres, _, _⟩ := insert_step_equipment_clean sid eqs s h
    refine ⟨s2, heq, ?_, hre2, hsi2, heqp2⟩
    rw [hse2, hres rid hsel]
  · intro i hname hfind
    simp [resolve_step_ing, hname, hfind]
  · intro e hname hfind
    simp [resolve_step_eq, hname, hfind]

/-- The C4 witness state: a step (id 10) of recipe 1, whose recipe has one
ingredient join row named "Egg" (id 3) and one equipment join row named
"Pan" (id 4); the master tables deliberately hold rows with clashing names
and different ids, to exhibit that resolution ignores them. -/
def c4s : St :=
  { db :=
      { recipes := [{ id := 1, title := some "R", description := none
                      prep_time := none, cook_time := none, servings := 4 }]
        ingredients := [{ id := 77, name := "egg" }]
        equipment := [{ id := 88, name := "pan" }]
        recipe_ingredients :=
          [{ id := 3, recipe_id := 1, ingredient_id := 77, name := "Egg"
             quantity := "2", unit := "" }]
        recipe_equipment :=
          [{ id := 4, recipe_id := 1, equipment_id := 88, name := "Pan" }]
        recipe_steps :=
          [{ id := 10, recipe_id := 1, step_number := some 1
             instruction := "beat", output := none, dependencies := []
             image_url := none, image_prompt := none
             image_generated_at := none }]
        step_ingredients := [], step_equipment := [], nextId := 11 }
    opIdx := 0, faults := [], trace := [], spawns := [] }

/-- The C4 witness references: one resolvable name (case-insensitively
matching "Egg") and one unresolvable name. -/
def c4ings : List IngredientInput :=
  [{ name := some "EGG", quantity := "", unit := "" },
   { name := some "truffle", quantity := "", unit := "" }]

/-- C4 witness: the theorem at the concrete state — the resolvable
reference yields exactly one step-join row carrying the per-recipe join row
id 3 (not the master id 77), the unresolvable one yields nothing. -/
theorem step_references_resolved_per_recipe_witness :
    resolve_step_ing c4s.db.recipe_ingredients 1 10 c4ings =
      [{ step_id := 10, ingredient_id := 3 }] ∧
    (∃ s1, insert_step_ingredients 10 c4ings c4s = s1 ∧
      s1.db.step_ingredients = c4s.db.step_ingredients ++
        resolve_step_ing c4s.db.recipe_ingredients 1 10 c4ings) := by
  refine ⟨by decide, ?_⟩
  obtain ⟨s1, heq, hsi, _⟩ :=
    (step_references_resolved_per_recipe 10 1 c4ings [] c4s rfl
      (by decide)).1
  exact ⟨s1, heq, hsi⟩

/-- The existing recipe row of the C1 witness. -/
def rowW : RecipeRow :=
  { id := 1, title := some "omelette", description := none
    prep_time := none, cook_time := none, servings := 4 }

/-- The C1 witness state: recipe 1 ("omelette") with one ingredient join,
one step and one step-ingredient join already stored. -/
def sW : St :=
  { db :=
      { recipes := [rowW]
        ingredients := [{ id := 4, name := "egg" }]
        equipment := []
        recipe_ingredients :=
          [{ id := 3, recipe_id := 1, ingredient_id := 4, name := "egg"
             quantity := "2", unit := "" }]
        recipe_equipment := []
        recipe_steps :=
          [{ id := 2, recipe_id := 1, step_number := some 1
             instruction := "old", output := none, dependencies := []
             image_url := none, image_prompt := none
             image_generated_at := none }]
        step_ingredients := [{ step_id := 2, ingredient_id := 3 }]
        step_equipment := [], nextId := 5 }
    opIdx := 0, faults := [], trace := [], spawns := [] }

/-- The C1 witness submission: same title in different case, one new
ingredient, one equipment item, one step referencing the ingredient. -/
def rdW : RecipeData :=
  { title := some "Omelette", description := some "d"
    prep_time := some "5", prepTime := none, cook_time := none
    cookTime := none, servings := some 2
    ingredients := [{ name := some "Egg", quantity := "3", unit := "" }]
    equipment := [{ name := some "Pan" }]
    steps := [{ step_number := some 1, idField := none
                instruction := some "beat eggs", output := none
                dependencies := []
                ingredients := [{ name := some "egg", quantity := ""
                                  unit := "" }]
                equipment := [] }] }

/-- C1 witness: the overwrite theorem at the concrete scenario — the call
re-uses recipe id 1 and the recipe's ingredient rows afterwards are exactly
the newly submitted ones. -/
theorem save_recipe_overwrite_exact_witness :
    (save_recipe_to_db rdW false sW).1 = some 1 ∧
    ((save_recipe_to_db rdW false sW).2.db.recipe_ingredients.filter
      (fun r => r.recipe_id == 1)).map ingContent =
      rdW.ingredients.map ingInputContent := by
  have h := save_recipe_overwrite_exact rdW false sW rowW rfl (by decide)
    (by decide) (by decide) (by decide) (by decide) (by decide) (by decide)
    (by decide) (by decide)
  exact ⟨h.1, h.2.1⟩

/-- The first-call environment of the C5 witness: generation, download and
upload all succeed. -/
def c5env1 : ImgEnv :=
  { backend := "stable_diffusion", sdResult := fun _ => some "u"
    dalleResult := none, download := fun _ => some "b", uploadOk := true
    now := "t" }

/-- The second-call environment of the C5 witness: a later timestamp and a
failing generator, which the short-circuit must never invoke. -/
def c5env2 : ImgEnv :=
  { backend := "stable_diffusion", sdResult := fun _ => none
    dalleResult := none, download := fun _ => none, uploadOk := false
    now := "t2" }

/-- The image data produced by the C5 witness's first call. -/
def c5d : ImageData :=
  { image_url := get_object_url (stepImageFilename 1 1)
    prompt := "simple flat illustration, overhead view, ONLY mix, " ++
      "cooking items, no extra objects, plain tan background, vector style"
    generated_at := "t", skipped := none }

set_option maxRecDepth 4000 in
/-- C5 witness: the theorem at concrete inputs — after a first stored
generation, the second call returns the existing URL tagged skipped. -/
theorem second_generation_skips_witness :
    (generate_and_store_step_image c5env2 DB.empty
      (generate_and_store_step_image c5env1 DB.empty { objects := [] } 1
        "mix" "R" 1 1 true).storage 2 "other" "Other" 1 1 true).result =
      some { image_url := get_object_url (stepImageFilename 1 1)
             prompt := "existing", generated_at := "t2"
             skipped := some true } := by
  have h := second_generation_skips c5env1 c5env2 DB.empty DB.empty
    { objects := [] } 1 2 1 1 "mix" "other" "R" "Other" true c5d
    (by decide) rfl
  exact h.1

/-- The environment of the C10 witness (its oracles are irrelevant: the
existing-image path must not consult them). -/
def c10env : ImgEnv :=
  { backend := "stable_diffusion", sdResult := fun _ => none
    dalleResult := none, download := fun _ => none, uploadOk := false
    now := "t" }

/-- The C10 witness database: step 4 of recipe 1 already carries an old
image prompt that the callback must overwrite. -/
def c10db : DB :=
  { recipes := [], ingredients := [], equipment := []
    recipe_ingredients := [], recipe_equipment := []
    recipe_steps :=
      [{ id := 4, recipe_id := 1, step_number := some 2
         instruction := "mix", output := none, dependencies := []
         image_url := some "old-url", image_prompt := some "old prompt"
         image_generated_at := some "t0" }]
    step_ingredients := [], step_equipment := [], nextId := 9 }

/-- The C10 witness storage: the step's target image already exists. -/
def c10st : Storage := { objects := [stepImageFilename 1 2] }

/-- C10 witness: the theorem at the concrete scenario — the skipped result
still updates the step row, overwriting url and prompt. -/
theorem existing_image_overwrites_step_row_witness :
    (generate_step_image_async_task c10env c10db c10st 4 2 "mix" 1 "R"
      true).result.skipped = some true ∧
    (generate_step_image_async_task c10env c10db c10st 4 2 "mix" 1 "R"
      true).result.prompt = some "existing" ∧
    (generate_step_image_async_task c10env c10db c10st 4 2 "mix" 1 "R"
      true).result.image_url =
      some (get_object_url (stepImageFilename 1 2)) := by
  have h := existing_image_overwrites_step_row c10env c10db c10st 4 2 "mix"
    1 "R" (by decide)
  exact ⟨h.2.1, h.2.2.2.1, h.2.2.1⟩

end Sizzle
